import Mathlib

/-!
# Verification of the comparable-property matching engine

Shallow embedding of the `taxprotest.comparables` package
(`engine.py`, `scoring.py`, `stats.py`, `config.py`) in Lean 4.

Modelling conventions:
* Database cell values are modelled by `Val` (SQL NULL, TEXT, INTEGER).
  Real-valued arithmetic is modelled exactly over `ℚ` (the source uses
  IEEE doubles; every bound proven here is representation independent).
* `float(...)` / `int(...)` conversions on strings are modelled by a
  decimal parser covering plain signed decimal literals; on integer cells
  the string round-trip `float(str(n))` is collapsed to the identity,
  which is what it computes.
* The transcendental helpers (`haversine`'s trig, `math.sqrt`) cannot be
  represented in `ℚ`; they enter the embedding as explicit function
  parameters (`hav`, `sqrtq`).  All universally quantified theorems hold
  for every choice of these parameters, hence for the real functions.
* `try/except` blocks are modelled by `Option`-valued conversions; an
  uncaught Python exception (subject not found, `TypeError` on non-numeric
  coordinates) is an `Except.error` result.
-/

set_option maxRecDepth 200000

namespace TaxProtest

/-- A database cell value: SQL NULL, a TEXT cell, an INTEGER cell, or a
REAL cell (modelled exactly as a rational). -/
inductive Val where
  | null : Val
  | str (s : String) : Val
  | int (n : ℤ) : Val
  | rat (q : ℚ) : Val
deriving DecidableEq, Repr

/-- Python `int(q)` on a float: truncation toward zero. -/
def pyTrunc (q : ℚ) : ℤ := if 0 ≤ q then ⌊q⌋ else ⌈q⌉

namespace Val

/-- Python truthiness of a cell value (`None`/`''`/`0`/`0.0` are falsy). -/
def truthy : Val → Bool
  | .null => false
  | .str s => s ≠ ""
  | .int n => n ≠ 0
  | .rat q => q ≠ 0

/-- Python `v in (0, 1)`: the tri-state pool/garage flag is known
(`0.0 == 0` and `1.0 == 1` in Python). -/
def isTriKnown : Val → Bool
  | .int 0 => true
  | .int 1 => true
  | .rat q => q = 0 ∨ q = 1
  | _ => false

/-- Python `int(v)` on a value already known to compare equal to `0` or `1`. -/
def triIntVal : Val → ℤ
  | .int n => n
  | .rat q => pyTrunc q
  | _ => 0

/-- Python `v not in (None, '')`. -/
def notNoneEmpty (v : Val) : Bool := v ≠ .null ∧ v ≠ .str ""

/-- Python `v and v not in ('', '0')`: a truthy value that is neither the
empty string nor the literal string zero. -/
def truthyNotZeroStr (v : Val) : Bool := v.truthy ∧ v ≠ .str "" ∧ v ≠ .str "0"

end Val

/-- Value of a list of decimal digit characters. -/
def digitsToNat (l : List Char) : ℕ :=
  l.foldl (fun a c => 10 * a + (c.toNat - '0'.toNat)) 0

/-- Parser for an unsigned Python decimal literal: `digits`, `digits.digits`,
`digits.` or `.digits` (exponents and `inf`/`nan` spellings, which never
occur in the data this code consumes, are not modelled). -/
def parseDec? (l : List Char) : Option ℚ :=
  let intPart := l.takeWhile Char.isDigit
  let rest := l.dropWhile Char.isDigit
  match rest with
  | [] => if intPart = [] then none else some (digitsToNat intPart : ℚ)
  | '.' :: frac =>
      if frac.all Char.isDigit ∧ (intPart ≠ [] ∨ frac ≠ []) ∧
          (intPart ≠ [] ∨ frac.length ≠ 0) then
        some ((digitsToNat intPart : ℚ) + (digitsToNat frac : ℚ) / 10 ^ frac.length)
      else none
  | _ => none

/-- Python `float(s)` on an already-stripped string, `none` on `ValueError`. -/
def pyFloatString? (s : String) : Option ℚ :=
  match s.toList with
  | '-' :: rest => (parseDec? rest).map (fun q => -q)
  | '+' :: rest => parseDec? rest
  | rest => parseDec? rest

/-- Python `int(s)` on an already-stripped string: an optional sign followed
by digits only; `none` on `ValueError`. -/
def pyIntString? (s : String) : Option ℤ :=
  match s.toList with
  | '-' :: rest =>
      if rest ≠ [] ∧ rest.all Char.isDigit then some (-(digitsToNat rest : ℤ)) else none
  | '+' :: rest =>
      if rest ≠ [] ∧ rest.all Char.isDigit then some (digitsToNat rest : ℤ) else none
  | rest =>
      if rest ≠ [] ∧ rest.all Char.isDigit then some (digitsToNat rest : ℤ) else none

/-- Python `float(v)` on a raw cell value (`TypeError` on `None`). -/
def pyFloatVal? : Val → Option ℚ
  | .null => none
  | .str s => pyFloatString? s.trim
  | .int n => some (n : ℚ)
  | .rat q => some q

/-- Python `int(v)` on a raw cell value (floats truncate toward zero). -/
def pyIntVal? : Val → Option ℤ
  | .null => none
  | .str s => pyIntString? s.trim
  | .int n => some n
  | .rat q => some (pyTrunc q)

/-- Python `str(v).isdigit()` (`str(None) = "None"` is not all digits;
`str(n)` for an integer is all digits iff `n ≥ 0`; `str` of a float always
contains `'.'`). -/
def pyIsDigit : Val → Bool
  | .null => false
  | .str s => s ≠ "" ∧ s.toList.all Char.isDigit
  | .int n => 0 ≤ n
  | .rat _ => false

/-- Python `str(v).strip() != ''` (`str(None) = "None"`, `str(n)` and
`str(q)` are never blank). -/
def strNotBlank : Val → Bool
  | .null => true
  | .str s => s.trim ≠ ""
  | .int _ => true
  | .rat _ => true

/-- `_float` from `engine.py` / `scoring.py`: `None`, `''` and `'0'` become
`None`; otherwise parse the stripped string.  On an integer cell,
`float(str(n))` collapses to `n` and `str(n).strip() ∈ {'','0'}` iff
`n = 0`; on a float cell `str(q)` (e.g. `"0.0"`) is never `'0'`, so the
value always survives. -/
def pyfloat : Val → Option ℚ
  | .null => none
  | .str s =>
      let t := s.trim
      if t = "" ∨ t = "0" then none else pyFloatString? t
  | .int n => if n = 0 then none else some (n : ℚ)
  | .rat q => some q

/-- `_int` from `engine.py` / `scoring.py`: `None` becomes `None`; otherwise
the stripped string form must be all digits (`str` of a float never is). -/
def pyint : Val → Option ℤ
  | .null => none
  | .str s =>
      let t := s.trim
      if t ≠ "" ∧ t.toList.all Char.isDigit then pyIntString? t else none
  | .int n => if 0 ≤ n then some n else none
  | .rat _ => none

/-- Round-half-to-even to an integer (Python `round` on an exact value). -/
def roundHalfEven (q : ℚ) : ℤ :=
  let f := ⌊q⌋
  let r := q - (f : ℚ)
  if r < 1/2 then f
  else if 1/2 < r then f + 1
  else if 2 ∣ f then f else f + 1

/-- Python `round(q, d)` modelled exactly on rationals. -/
def pyRound (d : ℕ) (q : ℚ) : ℚ := (roundHalfEven (q * 10 ^ d) : ℚ) / 10 ^ d

/-! ## `config.py` -/

def SIZE_BANDS : List (Option ℚ) :=
  [some (5/100), some (10/100), some (15/100), some (20/100), some (25/100), some (35/100), none]

def LOT_BANDS : List (Option ℚ) :=
  [some (10/100), some (20/100), some (30/100), some (40/100), some (50/100), none]

def YEAR_BANDS : List (Option ℤ) := [some 5, some 10, some 15, some 20, some 30, none]

def BED_BATH_BANDS : List (Option ℤ) := [some 1, some 2, some 3, none]

def RADIUS_TIERS : List ℚ := [3/2, 3, 5, 10, 15, 20, 25]

def STORY_TOLERANCES : List (Option ℤ) := [some 0, some 1, some 2, none]

/-- The `weights` dict consumed by `compute_score` (a key may be absent,
in which case `weights.get(k, default)` supplies the default). -/
structure Weights where
  distance : Option ℚ
  size : Option ℚ
  year : Option ℚ
  beds_baths : Option ℚ
  stories : Option ℚ
  pool_garage : Option ℚ
deriving DecidableEq, Repr

def SCORING_WEIGHTS : Weights :=
  ⟨some (4/10), some (25/100), some (1/10), some (1/10), some (5/100), some (1/10)⟩

def CACHE_MAX_ENTRIES : ℤ := 50

/-! ## Row and record shapes -/

/-- One row of the subject query (20 columns, in `SELECT` order). -/
structure SubjectRow where
  acct : Val
  site_addr_1 : Val
  site_addr_3 : Val
  tot_mkt_val : Val
  land_ar : Val
  im_sq_ft : Val
  eff : Val
  bedrooms : Val
  bathrooms : Val
  amenities : Val
  property_type : Val
  overall_rating : Val
  quality_rating : Val
  rating_explanation : Val
  latitude : Val
  longitude : Val
  neighborhood_code : Val
  stories : Val
  has_pool : Val
  has_garage : Val
deriving DecidableEq, Repr

/-- One row of the candidate query (19 columns, in `SELECT` order). -/
structure CandRow where
  acct : Val
  site_addr_1 : Val
  site_addr_3 : Val
  tot_mkt_val : Val
  land_ar : Val
  im_sq_ft : Val
  eff : Val
  bedrooms : Val
  bathrooms : Val
  amenities : Val
  property_type : Val
  overall_rating : Val
  quality_rating : Val
  rating_explanation : Val
  latitude : Val
  longitude : Val
  stories : Val
  has_pool : Val
  has_garage : Val
deriving DecidableEq, Repr

/-- The `subject` dict built by `find_comps` (`ppsf` key present only when
both building area and market value are usable). -/
structure SubjectRec where
  acct : Val
  site_addr_1 : Val
  site_addr_3 : Val
  market_value : Val
  land_area : Val
  building_area : Val
  build_year : Val
  bedrooms : Val
  bathrooms : Val
  amenities : Val
  property_type : Val
  overall_rating : Val
  quality_rating : Val
  rating_explanation : Val
  stories : Val
  has_pool : Val
  has_garage : Val
  latitude : Val
  longitude : Val
  ppsf : Option ℚ
deriving DecidableEq, Repr

/-- A materialized comparable record (`score` is populated by
`finalize_result`, `distance_miles`/`ppsf` may be absent). -/
structure CompRec where
  acct : Val
  site_addr_1 : Val
  site_addr_3 : Val
  market_value : Val
  land_area : Val
  building_area : Val
  build_year : Val
  bedrooms : Val
  bathrooms : Val
  stories : Val
  has_pool : Val
  has_garage : Val
  amenities : Val
  property_type : Val
  overall_rating : Val
  quality_rating : Val
  rating_explanation : Val
  distance_miles : Option ℚ
  ppsf : Option ℚ
  score : Option ℚ
deriving DecidableEq, Repr

/-! ## `scoring.py` -/

def MISSING_PENALTY_FACTOR : ℚ := 1/2

def POOL_GARAGE_MISSING_FACTOR : ℚ := 1/4

/-- Distance penalty block of `compute_score`. -/
def distanceTerm (record : CompRec) (w : Weights) : ℚ :=
  match record.distance_miles with
  | none => 0
  | some d => (w.distance.getD (4/10)) * min 1 (d / 15)

/-- Size penalty block of `compute_score` (a failed `float` conversion or a
zero subject size aborts the `try` block, adding nothing). -/
def sizeTerm (record : CompRec) (subject : SubjectRec) (w : Weights) : ℚ :=
  match pyfloat subject.building_area with
  | none => 0
  | some base_im =>
      if record.building_area.truthyNotZeroStr then
        match pyFloatVal? record.building_area with
        | none => 0
        | some c =>
            if base_im = 0 then 0
            else (w.size.getD (25/100)) * min 1 ((|c - base_im| / base_im) / (30/100))
      else (w.size.getD (25/100)) * MISSING_PENALTY_FACTOR

/-- Year penalty block of `compute_score`. -/
def yearTerm (record : CompRec) (subject : SubjectRec) (w : Weights) : ℚ :=
  match pyint subject.build_year with
  | none => 0
  | some base_year =>
      if record.build_year.truthy ∧ pyIsDigit record.build_year then
        match pyIntVal? record.build_year with
        | none => 0
        | some cy => (w.year.getD (1/10)) * min 1 (((|cy - base_year| : ℤ) : ℚ) / 15)
      else (w.year.getD (1/10)) * MISSING_PENALTY_FACTOR

/-- Bedrooms penalty block of `compute_score`. -/
def bedsTerm (record : CompRec) (subject : SubjectRec) (w : Weights) : ℚ :=
  match pyfloat subject.bedrooms with
  | none => 0
  | some base_beds =>
      if record.bedrooms.notNoneEmpty then
        match pyFloatVal? record.bedrooms with
        | none => 0
        | some c => (w.beds_baths.getD (1/10)) * (min 2 |c - base_beds| / 2)
      else (w.beds_baths.getD (1/10)) * MISSING_PENALTY_FACTOR

/-- Bathrooms penalty block of `compute_score`. -/
def bathsTerm (record : CompRec) (subject : SubjectRec) (w : Weights) : ℚ :=
  match pyfloat subject.bathrooms with
  | none => 0
  | some base_baths =>
      if record.bathrooms.notNoneEmpty then
        match pyFloatVal? record.bathrooms with
        | none => 0
        | some c => (w.beds_baths.getD (1/10)) * (min 2 |c - base_baths| / 2)
      else (w.beds_baths.getD (1/10)) * MISSING_PENALTY_FACTOR

/-- Stories penalty block of `compute_score`. -/
def storiesTerm (record : CompRec) (subject : SubjectRec) (w : Weights) : ℚ :=
  match pyint subject.stories with
  | none => 0
  | some base_stories =>
      if record.stories.notNoneEmpty then
        match pyIntVal? record.stories with
        | none => 0
        | some c => (w.stories.getD (5/100)) * min 1 ((|c - base_stories| : ℤ) : ℚ)
      else (w.stories.getD (5/100)) * MISSING_PENALTY_FACTOR

/-- Pool penalty block of `compute_score`: a definite mismatch costs half the
weight, an unknown comparable flag a quarter; nothing is added when the
subject's flag is unknown. -/
def poolTerm (record : CompRec) (subject : SubjectRec) (w : Weights) : ℚ :=
  if subject.has_pool.isTriKnown then
    if record.has_pool.isTriKnown then
      if record.has_pool.triIntVal ≠ subject.has_pool.triIntVal then
        (w.pool_garage.getD (1/10)) * (1/2)
      else 0
    else (w.pool_garage.getD (1/10)) * POOL_GARAGE_MISSING_FACTOR
  else 0

/-- Garage penalty block of `compute_score`, same policy as the pool block. -/
def garageTerm (record : CompRec) (subject : SubjectRec) (w : Weights) : ℚ :=
  if subject.has_garage.isTriKnown then
    if record.has_garage.isTriKnown then
      if record.has_garage.triIntVal ≠ subject.has_garage.triIntVal then
        (w.pool_garage.getD (1/10)) * (1/2)
      else 0
    else (w.pool_garage.getD (1/10)) * POOL_GARAGE_MISSING_FACTOR
  else 0

/-- The accumulated `penalties` value of `compute_score` (each `try` block
adds one independent, order-insensitive term). -/
def penaltyTotal (record : CompRec) (subject : SubjectRec) (w : Weights) : ℚ :=
  distanceTerm record w + sizeTerm record subject w + yearTerm record subject w +
    bedsTerm record subject w + bathsTerm record subject w +
    storiesTerm record subject w + poolTerm record subject w +
    garageTerm record subject w

/-- `compute_score` from `scoring.py`. -/
def compute_score (record : CompRec) (subject : SubjectRec) (w : Weights) : ℚ :=
  let score := 100 * (1 - min (99/100) (penaltyTotal record subject w))
  let score := if score < 0 then 0 else score
  pyRound 2 score

/-! ## `stats.py` -/

/-- The dict returned by `basic` for a non-empty series (all values already
rounded, as the source stores rounded numbers in the dict). -/
structure BasicStatsFull where
  count : ℕ
  mean : ℚ
  median : ℚ
  min : ℚ
  max : ℚ
  q1 : ℚ
  q3 : ℚ
  iqr : ℚ
  range : ℚ
  std : ℚ
  cv : Option ℚ
deriving DecidableEq, Repr

/-- Result of `basic`: `{'count': 0}` for an empty series, else the full
statistics dict. -/
inductive BasicStats where
  | empty : BasicStats
  | full (b : BasicStatsFull) : BasicStats
deriving DecidableEq, Repr

/-- `basic` from `compute_pricing_stats` (`sqrtq` models `math.sqrt`). -/
def basic (sqrtq : ℚ → ℚ) (series : List ℚ) : BasicStats :=
  if series = [] then .empty
  else
    let s := series.mergeSort (fun a b => decide (a ≤ b))
    let n := s.length
    let mean := s.sum / (n : ℚ)
    let med := if n % 2 = 1 then s.getD (n / 2) 0
               else (s.getD (n / 2 - 1) 0 + s.getD (n / 2) 0) / 2
    let q1 := s.getD ((n - 1) / 4) 0
    let q3 := s.getD (3 * (n - 1) / 4) 0
    let iqr := q3 - q1
    let rng := s.getD (n - 1) 0 - s.getD 0 0
    let var := (s.map (fun x => (x - mean) ^ 2)).sum / (n : ℚ)
    let std := sqrtq var
    let cv : Option ℚ := if mean ≠ 0 then some (pyRound 3 (std / mean)) else none
    .full ⟨n, pyRound 2 mean, pyRound 2 med, pyRound 2 (s.getD 0 0),
      pyRound 2 (s.getD (n - 1) 0), pyRound 2 q1, pyRound 2 q3, pyRound 2 iqr,
      pyRound 2 rng, pyRound 2 std, cv⟩

/-- The `subject_vs_*` dict produced by `subj_vs` (`{}` is all-`none`). -/
structure SubjVs where
  diff_vs_mean : Option ℚ
  pct_vs_mean : Option ℚ
  diff_vs_median : Option ℚ
  pct_vs_median : Option ℚ
deriving DecidableEq, Repr

/-- `subj_vs`, after the subject value has been converted (`none` when the
value was `None` or its `float` conversion failed). -/
def subjVsQ (fval? : Option ℚ) : BasicStats → SubjVs
  | .empty => ⟨none, none, none, none⟩
  | .full b =>
      match fval? with
      | none => ⟨none, none, none, none⟩
      | some fval =>
          let dm := if b.mean ≠ 0 then some (pyRound 2 (fval - b.mean)) else none
          let pm := if b.mean ≠ 0 then some (pyRound 2 ((fval - b.mean) / b.mean * 100)) else none
          let dd := if b.median ≠ 0 then some (pyRound 2 (fval - b.median)) else none
          let pd := if b.median ≠ 0 then some (pyRound 2 ((fval - b.median) / b.median * 100)) else none
          ⟨dm, pm, dd, pd⟩

/-- `subj_vs` applied to a raw subject cell value. -/
def subjVsVal (val : Val) (b : BasicStats) : SubjVs := subjVsQ (pyFloatVal? val) b

/-- The `ppsf_band_counts` dict. -/
structure BandCounts where
  within_5pct : ℕ
  within_10pct : ℕ
  within_15pct : ℕ
deriving DecidableEq, Repr

/-- Python `v not in (None, '', '0')` for a raw cell value. -/
def Val.notIn3 (v : Val) : Bool := v ≠ .null ∧ v ≠ .str "" ∧ v ≠ .str "0"

/-- The dict returned by `compute_pricing_stats` (absent optional keys are
`none`). -/
structure PricingStats where
  value_stats : BasicStats
  ppsf_stats : BasicStats
  subject_vs_value : SubjVs
  subject_vs_ppsf : SubjVs
  ppsf_band_counts : Option BandCounts
  pool_match_rate : Option ℚ
  garage_match_rate : Option ℚ
  trimmed_ppsf_median : Option ℚ
deriving DecidableEq, Repr

/-- Count of `ppsf_list` entries within `pct` of the subject's
price-per-square-foot (`within` from the source). -/
def withinCount (subj_ppsf : ℚ) (ppsf_list : List ℚ) (pct : ℚ) : ℕ :=
  (ppsf_list.filter
    (fun x => decide (subj_ppsf * (1 - pct) ≤ x ∧ x ≤ subj_ppsf * (1 + pct)))).length

/-- The pool/garage match-rate computation shared by both flags. -/
def matchRate (subjFlag : Val) (flags : List Val) : Option ℚ :=
  if flags ≠ [] ∧ subjFlag.isTriKnown then
    some (pyRound 2
      (((flags.filter (fun p => decide (p.triIntVal = subjFlag.triIntVal))).length : ℚ) /
        (flags.length : ℚ) * 100))
  else none

/-- `compute_pricing_stats` from `stats.py`.  The `values` list comprehension
applies an unguarded `float(...)`, so a malformed non-blank market value
raises (`Except.error`). -/
def compute_pricing_stats (sqrtq : ℚ → ℚ) (subject : SubjectRec) (comps : List CompRec) :
    Except String PricingStats :=
  match ((comps.filter (fun c => c.market_value.notIn3)).mapM
      (fun c => pyFloatVal? c.market_value)) with
  | none => .error "ValueError: could not convert string to float"
  | some values =>
      let ppsf_list := comps.filterMap (fun c => c.ppsf)
      let value_stats := basic sqrtq values
      let ppsf_stats := basic sqrtq ppsf_list
      let subject_vs_value := subjVsVal subject.market_value value_stats
      let subject_vs_ppsf := subjVsQ subject.ppsf ppsf_stats
      let band_counts : Option BandCounts :=
        match subject.ppsf with
        | some f =>
            if f ≠ 0 ∧ ppsf_list ≠ [] then
              some ⟨withinCount f ppsf_list (5/100), withinCount f ppsf_list (10/100),
                withinCount f ppsf_list (15/100)⟩
            else none
        | none => none
      let pools := (comps.filter (fun c => c.has_pool.isTriKnown)).map (fun c => c.has_pool)
      let garages := (comps.filter (fun c => c.has_garage.isTriKnown)).map (fun c => c.has_garage)
      let trimmed_med : Option ℚ :=
        match ppsf_stats with
        | .full b =>
            if 4 ≤ b.count then
              let lo := b.q1 - 3/2 * b.iqr
              let hi := b.q3 + 3/2 * b.iqr
              let trimmed := ppsf_list.filter (fun x => decide (lo ≤ x ∧ x ≤ hi))
              if trimmed ≠ [] ∧ trimmed ≠ ppsf_list then
                match basic sqrtq trimmed with
                | .full tb => some tb.median
                | .empty => none
              else none
            else none
        | .empty => none
      .ok ⟨value_stats, ppsf_stats, subject_vs_value, subject_vs_ppsf, band_counts,
        matchRate subject.has_pool pools, matchRate subject.has_garage garages, trimmed_med⟩

/-! ## `engine.py`: result metadata and `MatchResult` -/

/-- The `baseline_meta_labels` dict. -/
structure BaselineLabels where
  size_band : String
  lot_band : String
  year_band : String
  bed_bath_band : String
  story_band : String
  pool_rule : String
  garage_rule : String
deriving DecidableEq, Repr

/-- The `relaxed` dict: which accepted labels differ from the baseline. -/
structure RelaxedMap where
  size_band : Bool
  lot_band : Bool
  year_band : Bool
  bed_bath_band : Bool
  story_band : Bool
  pool_rule : Bool
  garage_rule : Bool
deriving DecidableEq, Repr

/-- The `chosen_meta` dict (keys that start as `None` are `Option`s; the
`baseline`/`relaxed`/`pricing_stats` keys are added late, hence optional). -/
structure Meta where
  geo_tier : Option String
  radius_miles : Option ℚ
  size_band : Option String
  lot_band : Option String
  year_band : Option String
  bed_bath_band : Option String
  story_band : Option String
  pool_rule : Option String
  garage_rule : Option String
  attempts : ℕ
  subject_has_geo : Bool
  used_neighborhood : Bool
  scoring_weights : Weights
  baseline : Option BaselineLabels
  relaxed : Option RelaxedMap
  pricing_stats : Option PricingStats
deriving DecidableEq, Repr

/-- The `{'subject': ..., 'comps': ..., 'meta': ...}` result dict. -/
structure MatchResult where
  subject : SubjectRec
  comps : List CompRec
  meta : Meta
deriving DecidableEq, Repr

/-! ## `engine.py`: the LRU result cache -/

/-- `cache_key = (subject_account, max_comps, min_comps, radius_first_strict,
max_radius)`. -/
abbrev CacheKey := String × ℤ × ℤ × Bool × Option ℚ

abbrev Cache := List (CacheKey × MatchResult)

/-- Find the first entry with the given key and detach it from the list
(the `for i,(k,v) in enumerate(...)` / `pop(i)` idiom of both cache ops). -/
def removeFirst (key : CacheKey) : Cache → Option ((CacheKey × MatchResult) × Cache)
  | [] => none
  | e :: rest =>
      if e.1 = key then some (e, rest)
      else (removeFirst key rest).map (fun p => (p.1, e :: p.2))

/-- `_cache_get`: on a hit the entry is promoted to the front (MRU). -/
def cacheGet (maxEntries : ℤ) (key : CacheKey) (c : Cache) : Option MatchResult × Cache :=
  if maxEntries ≤ 0 then (none, c)
  else
    match removeFirst key c with
    | none => (none, c)
    | some (e, rest) => (some e.2, e :: rest)

/-- `_cache_set`: drop any existing entry with the key, insert at the front,
evict the last entry when over capacity. -/
def cacheSet (maxEntries : ℤ) (key : CacheKey) (v : MatchResult) (c : Cache) : Cache :=
  if maxEntries ≤ 0 then c
  else
    let c1 := match removeFirst key c with
              | none => c
              | some (_, rest) => rest
    let c2 := (key, v) :: c1
    if maxEntries < (c2.length : ℤ) then c2.dropLast else c2

/-! ## `engine.py`: the constraint filter `passes` -/

/-- Size check of `passes`: the relative band applies only when both sides
have a usable value; a failed `float(...)` on the candidate rejects it
(`except: return False`). -/
def passesSize (base_im : Option ℚ) (c : CandRow) (size_band : Option ℚ) : Bool :=
  match size_band with
  | none => true
  | some band =>
      match base_im with
      | none => true
      | some b =>
          if b = 0 then true
          else if c.im_sq_ft.truthyNotZeroStr then
            match pyFloatVal? c.im_sq_ft with
            | none => false
            | some cim => ¬(cim < b * (1 - band) ∨ b * (1 + band) < cim)
          else true

/-- Lot-area check of `passes`, same shape as the size check. -/
def passesLot (base_lot : Option ℚ) (c : CandRow) (lot_band : Option ℚ) : Bool :=
  match lot_band with
  | none => true
  | some band =>
      match base_lot with
      | none => true
      | some b =>
          if b = 0 then true
          else if c.land_ar.truthyNotZeroStr then
            match pyFloatVal? c.land_ar with
            | none => false
            | some clot => ¬(clot < b * (1 - band) ∨ b * (1 + band) < clot)
          else true

/-- Year check of `passes`: guarded by `str(...).isdigit()`, so a malformed
candidate year skips the check instead of rejecting. -/
def passesYear (base_year : Option ℤ) (c : CandRow) (year_band : Option ℤ) : Bool :=
  match year_band with
  | none => true
  | some band =>
      match base_year with
      | none => true
      | some b =>
          if b = 0 then true
          else if c.eff.truthy ∧ pyIsDigit c.eff then
            match pyIntVal? c.eff with
            | none => false
            | some cy => decide (|cy - b| ≤ band)
          else true

/-- Bed/bath check of `passes`: absolute tolerance, applied independently to
bedrooms and bathrooms; a failed `float(...)` rejects. -/
def passesBedBath (base_beds base_baths : Option ℚ) (c : CandRow) (band? : Option ℤ) : Bool :=
  match band? with
  | none => true
  | some band =>
      (match base_beds with
       | none => true
       | some bb =>
           if c.bedrooms.notNoneEmpty then
             match pyFloatVal? c.bedrooms with
             | none => false
             | some cb => decide (|cb - bb| ≤ (band : ℚ))
           else true) &&
      (match base_baths with
       | none => true
       | some bb =>
           if c.bathrooms.notNoneEmpty then
             match pyFloatVal? c.bathrooms with
             | none => false
             | some cb => decide (|cb - bb| ≤ (band : ℚ))
           else true)

/-- Stories check of `passes`: active only when the subject's cell is
non-null and non-blank; an unknown or unparsable candidate (or subject)
story count rejects. -/
def passesStories (s_stories : Val) (c : CandRow) (story_tol : Option ℤ) : Bool :=
  match story_tol with
  | none => true
  | some tol =>
      if s_stories ≠ .null ∧ strNotBlank s_stories then
        if c.stories = .null ∨ c.stories = .str "" then false
        else
          match pyIntVal? c.stories, pyIntVal? s_stories with
          | some ci, some si => decide (|ci - si| ≤ tol)
          | _, _ => false
      else true

/-- Pool check of `passes`: only a definite known/known mismatch under the
`'match'` rule rejects. -/
def passesPool (s_has_pool : Val) (c : CandRow) (pool_mode : String) : Bool :=
  ¬(pool_mode = "match" ∧ s_has_pool.isTriKnown ∧ c.has_pool.isTriKnown ∧
      c.has_pool.triIntVal ≠ s_has_pool.triIntVal)

/-- Garage check of `passes`, same policy as the pool check. -/
def passesGarage (s_has_garage : Val) (c : CandRow) (garage_mode : String) : Bool :=
  ¬(garage_mode = "match" ∧ s_has_garage.isTriKnown ∧ c.has_garage.isTriKnown ∧
      c.has_garage.triIntVal ≠ s_has_garage.triIntVal)

/-- One tuple of constraint bands (`is_strict` tags the extra leading tuple
yielded by `iterate_constraint_sets` when `radius_first_strict`). -/
structure Combo where
  size_band : Option ℚ
  lot_band : Option ℚ
  year_band : Option ℤ
  bed_bath_band : Option ℤ
  story_tol : Option ℤ
  pool_mode : String
  garage_mode : String
  is_strict : Bool
deriving DecidableEq, Repr

/-- `passes(candidate, ...)` from `find_comps`: the conjunction of the seven
early-return dimension checks. -/
def passes (srow : SubjectRow) (c : CandRow) (cb : Combo) : Bool :=
  passesSize (pyfloat srow.im_sq_ft) c cb.size_band &&
  passesLot (pyfloat srow.land_ar) c cb.lot_band &&
  passesYear (pyint srow.eff) c cb.year_band &&
  passesBedBath (pyfloat srow.bedrooms) (pyfloat srow.bathrooms) c cb.bed_bath_band &&
  passesStories srow.stories c cb.story_tol &&
  passesPool srow.has_pool c cb.pool_mode &&
  passesGarage srow.has_garage c cb.garage_mode

/-! ## `engine.py`: candidate assembly -/

/-- The subject/comparable `ppsf` computation (`round(float(mval) /
float(im_sq_ft), 2)` guarded by truthiness; any exception — parse failure
or division by a zero-valued area string — leaves the key absent). -/
def ppsfOf (mval im : Val) : Option ℚ :=
  if im.truthyNotZeroStr ∧ mval.truthyNotZeroStr then
    match pyFloatVal? mval, pyFloatVal? im with
    | some m, some i => if i = 0 then none else some (pyRound 2 (m / i))
    | _, _ => none
  else none

/-- The `subject` dict built from the subject row. -/
def subjectOfRow (srow : SubjectRow) : SubjectRec :=
  { acct := srow.acct
    site_addr_1 := srow.site_addr_1
    site_addr_3 := srow.site_addr_3
    market_value := srow.tot_mkt_val
    land_area := srow.land_ar
    building_area := srow.im_sq_ft
    build_year := srow.eff
    bedrooms := srow.bedrooms
    bathrooms := srow.bathrooms
    amenities := srow.amenities
    property_type := srow.property_type
    overall_rating := srow.overall_rating
    quality_rating := srow.quality_rating
    rating_explanation := srow.rating_explanation
    stories := srow.stories
    has_pool := srow.has_pool
    has_garage := srow.has_garage
    latitude := srow.latitude
    longitude := srow.longitude
    ppsf := ppsfOf srow.tot_mkt_val srow.im_sq_ft }

/-- Python dict assignment `out[k] = v` for the distance map. -/
def dmInsert (k : Val) (v : ℚ) (m : List (Val × ℚ)) : List (Val × ℚ) :=
  if m.any (fun p => decide (p.1 = k)) then
    m.map (fun p => if p.1 = k then (k, v) else p)
  else m ++ [(k, v)]

/-- Python `m.get(k)` for the distance map. -/
def dmGet? (m : List (Val × ℚ)) (k : Val) : Option ℚ :=
  (m.find? (fun p => decide (p.1 = k))).map (fun p => p.2)

/-- `build_dist_map`: precompute haversine distances for candidates with
coordinates (`hav` abstracts the transcendental `haversine`); conversion
failures are swallowed per candidate. -/
def build_dist_map (hav : ℚ → ℚ → ℚ → ℚ → ℚ) (srow : SubjectRow)
    (cands : List CandRow) : List (Val × ℚ) :=
  if srow.latitude.truthy ∧ srow.longitude.truthy then
    cands.foldl (fun m cand =>
      if cand.latitude ≠ .null ∧ cand.longitude ≠ .null then
        match pyFloatVal? srow.latitude, pyFloatVal? srow.longitude,
            pyFloatVal? cand.latitude, pyFloatVal? cand.longitude with
        | some a, some b, some x, some y => dmInsert cand.acct (hav a b x y) m
        | _, _, _, _ => m
      else m) []
  else []

/-- The comparable record dict built by `materialize_candidate`. -/
def compOfCand (cand : CandRow) (dist? : Option ℚ) : CompRec :=
  { acct := cand.acct
    site_addr_1 := cand.site_addr_1
    site_addr_3 := cand.site_addr_3
    market_value := cand.tot_mkt_val
    land_area := cand.land_ar
    building_area := cand.im_sq_ft
    build_year := cand.eff
    bedrooms := cand.bedrooms
    bathrooms := cand.bathrooms
    stories := cand.stories
    has_pool := cand.has_pool
    has_garage := cand.has_garage
    amenities := cand.amenities
    property_type := cand.property_type
    overall_rating := cand.overall_rating
    quality_rating := cand.quality_rating
    rating_explanation := cand.rating_explanation
    distance_miles := dist?.map (pyRound 2)
    ppsf := ppsfOf cand.tot_mkt_val cand.im_sq_ft
    score := none }

/-- `materialize_candidate`: the second-pass true-circle radius re-check,
then the record build. -/
def materialize_candidate (srow : SubjectRow) (cand : CandRow)
    (dist_map : List (Val × ℚ)) (radius_val : Option ℚ) : Option CompRec :=
  let d? := dmGet? dist_map cand.acct
  let reject : Bool :=
    match radius_val, d? with
    | some r, some d => srow.latitude.truthy ∧ srow.longitude.truthy ∧ decide (r < d)
    | _, _ => false
  if reject then none else some (compOfCand cand d?)

/-! ## `engine.py`: relaxation search -/

/-- `f"±{int(band*100)}%"` / `'any'` label for a relative band. -/
def pctLabel : Option ℚ → String
  | none => "any"
  | some b => "±" ++ toString (pyTrunc (b * 100)) ++ "%"

/-- `f"±{band}y"` / `'any'` label for the year band. -/
def yearLabel : Option ℤ → String
  | none => "any"
  | some b => "±" ++ toString b ++ "y"

/-- `f"±{band}"` / `'any'` label for the bed/bath and story bands. -/
def absLabel : Option ℤ → String
  | none => "any"
  | some b => "±" ++ toString b

/-- The `story_tolerances` list: the full ladder only when the subject's
story cell is non-null and non-blank, else the single unbounded entry. -/
def storyTols (srow : SubjectRow) : List (Option ℤ) :=
  if srow.stories ≠ .null ∧ strNotBlank srow.stories then STORY_TOLERANCES else [none]

/-- The `pool_modes` list: `'match'` is only attempted for a known flag. -/
def poolModes (srow : SubjectRow) : List String :=
  if srow.has_pool.isTriKnown then ["match", "any"] else ["any"]

/-- The `garage_modes` list. -/
def garageModes (srow : SubjectRow) : List String :=
  if srow.has_garage.isTriKnown then ["match", "any"] else ["any"]

/-- `baseline_meta_labels`. -/
def baselineOf (srow : SubjectRow) : BaselineLabels :=
  ⟨"±5%", "±10%", "±5y", "±1",
    if srow.stories ≠ .null ∧ strNotBlank srow.stories then "±0" else "any",
    "match", "match"⟩

/-- The initial `chosen_meta` dict. -/
def meta0Of (srow : SubjectRow) : Meta :=
  { geo_tier := none, radius_miles := none, size_band := none, lot_band := none,
    year_band := none, bed_bath_band := none, story_band := none, pool_rule := none,
    garage_rule := none, attempts := 0,
    subject_has_geo := srow.latitude ≠ .null ∧ srow.longitude ≠ .null,
    used_neighborhood := false, scoring_weights := SCORING_WEIGHTS,
    baseline := none, relaxed := none, pricing_stats := none }

/-- The `relaxed` dict: each accepted label compared with its baseline. -/
def relaxedOf (m : Meta) (b : BaselineLabels) : RelaxedMap :=
  ⟨decide (m.size_band ≠ some b.size_band), decide (m.lot_band ≠ some b.lot_band),
    decide (m.year_band ≠ some b.year_band),
    decide (m.bed_bath_band ≠ some b.bed_bath_band),
    decide (m.story_band ≠ some b.story_band), decide (m.pool_rule ≠ some b.pool_rule),
    decide (m.garage_rule ≠ some b.garage_rule)⟩

/-- The nested `itertools.product` over all dimension band lists (rightmost
dimension varies fastest, exactly as `product(...)`). -/
def comboProduct (sz lt : List (Option ℚ)) (yr bb st : List (Option ℤ))
    (pm gm : List String) : List Combo :=
  sz.flatMap fun s => lt.flatMap fun l => yr.flatMap fun y => bb.flatMap fun b =>
    st.flatMap fun t => pm.flatMap fun p => gm.map fun g => ⟨s, l, y, b, t, p, g, false⟩

/-- `iterate_constraint_sets`: when `radius_first_strict`, the single
tightest tuple is yielded first (tagged `is_strict`), followed by the full
product; otherwise just the product. -/
def iterate_constraint_sets (radius_first_strict : Bool) (sz lt : List (Option ℚ))
    (yr bb st : List (Option ℤ)) (pm gm : List String) : List Combo :=
  (if radius_first_strict then
    [⟨sz.headI, lt.headI, yr.headI, bb.headI, st.headI, pm.headI, gm.headI, true⟩]
  else []) ++ comboProduct sz lt yr bb st pm gm

/-- The sort key `(-score, distance-or-9999)` of `finalize_result`. -/
def sortKey (r : CompRec) : ℚ × ℚ :=
  (-(r.score.getD 0), r.distance_miles.getD 9999)

/-- Ascending lexicographic comparison of sort keys (Python's `list.sort`
is stable ascending-by-key; a stable merge sort with this `le` computes the
same list). -/
def sortLE (a b : CompRec) : Bool :=
  if (sortKey a).1 < (sortKey b).1 then true
  else if (sortKey a).1 = (sortKey b).1 then decide ((sortKey a).2 ≤ (sortKey b).2)
  else false

/-- `finalize_result`: stamp the accepted tier/band labels, score, sort,
compute pricing stats, and assemble the result dict (the cache write is
threaded by the caller). -/
def finalize_result (sqrtq : ℚ → ℚ) (subject : SubjectRec) (meta0 : Meta)
    (baseline : BaselineLabels) (comps : List CompRec) (geo_label : String)
    (radius_val : Option ℚ) (cb : Combo) (attempts : ℕ) : Except String MatchResult :=
  let meta1 : Meta :=
    { meta0 with
      geo_tier := some geo_label
      radius_miles := radius_val
      size_band := some (pctLabel cb.size_band)
      lot_band := some (pctLabel cb.lot_band)
      year_band := some (yearLabel cb.year_band)
      bed_bath_band := some (absLabel cb.bed_bath_band)
      story_band := some (absLabel cb.story_tol)
      pool_rule := some cb.pool_mode
      garage_rule := some cb.garage_mode
      attempts := attempts
      used_neighborhood := geo_label = "neighborhood" }
  let scored := comps.map fun r =>
    { r with score := some (compute_score r subject meta1.scoring_weights) }
  let sorted := scored.mergeSort sortLE
  match compute_pricing_stats sqrtq subject sorted with
  | .error e => .error e
  | .ok ps =>
      let meta2 := { meta1 with
        baseline := some baseline
        relaxed := some (relaxedOf meta1 baseline)
        pricing_stats := some ps }
      .ok ⟨subject, sorted, meta2⟩

/-- One candidate-discovery strategy of `geo_sequences`. -/
inductive GeoSrc where
  | neighborhood : GeoSrc
  | radius (r : ℚ) : GeoSrc
  | zipcode : GeoSrc
deriving DecidableEq, Repr

/-- The read-only repository port: the three candidate queries plus the
subject query, each parameterized exactly by the SQL bind values. -/
structure Repo where
  subjectRow : String → Option SubjectRow
  neighborhoodRows : String → Val → List CandRow
  radiusRows : String → ℚ → ℚ → ℚ → ℚ → List CandRow
  zipRows : String → Val → List CandRow

/-- `geo_sequences`: neighborhood (if present) → ascending radius tiers
(if the subject has coordinates; filtered to `≤ max_radius`, falling back
to the full list when the filter empties it) → zip. -/
def geoSequences (srow : SubjectRow) (max_radius : Option ℚ) :
    List (String × Option ℚ × GeoSrc) :=
  let radius_tiers :=
    match max_radius with
    | none => RADIUS_TIERS
    | some mr =>
        let f := RADIUS_TIERS.filter (fun r => decide (r ≤ mr))
        if f = [] then RADIUS_TIERS else f
  (if srow.neighborhood_code.truthy ∧ strNotBlank srow.neighborhood_code then
    [("neighborhood", (none : Option ℚ), GeoSrc.neighborhood)]
  else []) ++
  (if srow.latitude.truthy ∧ srow.longitude.truthy then
    radius_tiers.map (fun r => ("radius", some r, GeoSrc.radius r))
  else []) ++
  [("zip", (none : Option ℚ), GeoSrc.zipcode)]

/-- Run one tier's candidate query, returning the rows and the number of
repository fetches executed (a guard short-circuit fetches nothing; the
bounding-box arithmetic on a TEXT coordinate is an uncaught `TypeError`). -/
def produce (repo : Repo) (subject_account : String) (srow : SubjectRow) :
    GeoSrc → Except String (List CandRow) × ℕ
  | .neighborhood =>
      if srow.neighborhood_code.truthy ∧ strNotBlank srow.neighborhood_code then
        (.ok (repo.neighborhoodRows subject_account srow.neighborhood_code), 1)
      else (.ok [], 0)
  | .radius r =>
      if srow.latitude.truthy ∧ srow.longitude.truthy then
        let deg := r / 69
        match srow.latitude, srow.longitude with
        | .int la, .int lo =>
            (.ok (repo.radiusRows subject_account ((la : ℚ) - deg) ((la : ℚ) + deg)
              ((lo : ℚ) - deg) ((lo : ℚ) + deg)), 1)
        | .int la, .rat lo =>
            (.ok (repo.radiusRows subject_account ((la : ℚ) - deg) ((la : ℚ) + deg)
              (lo - deg) (lo + deg)), 1)
        | .rat la, .int lo =>
            (.ok (repo.radiusRows subject_account (la - deg) (la + deg)
              ((lo : ℚ) - deg) ((lo : ℚ) + deg)), 1)
        | .rat la, .rat lo =>
            (.ok (repo.radiusRows subject_account (la - deg) (la + deg)
              (lo - deg) (lo + deg)), 1)
        | _, _ => (.error "TypeError: unsupported operand type for -", 0)
      else (.ok [], 0)
  | .zipcode =>
      if srow.site_addr_3.truthy then
        (.ok (repo.zipRows subject_account srow.site_addr_3), 1)
      else (.ok [], 0)

/-- All per-request state of `find_comps` that the nested loops close over. -/
structure SearchCtx where
  hav : ℚ → ℚ → ℚ → ℚ → ℚ
  sqrtq : ℚ → ℚ
  repo : Repo
  subject_account : String
  max_comps : ℤ
  min_comps : ℤ
  radius_first_strict : Bool
  srow : SubjectRow
  subject : SubjectRec
  baseline : BaselineLabels
  meta0 : Meta

/-- The inner `for cand in candidates_all` accumulation: keep passers,
materialize, stop as soon as `max_comps` are collected. -/
def SearchCtx.selectLoop (ctx : SearchCtx) (cb : Combo) (dist_map : List (Val × ℚ))
    (radius_val : Option ℚ) : List CandRow → List CompRec → List CompRec
  | [], acc => acc
  | cand :: rest, acc =>
      if passes ctx.srow cand cb then
        match materialize_candidate ctx.srow cand dist_map radius_val with
        | none => ctx.selectLoop cb dist_map radius_val rest acc
        | some rec0 =>
            let acc2 := acc ++ [rec0]
            if ctx.max_comps ≤ (acc2.length : ℤ) then acc2
            else ctx.selectLoop cb dist_map radius_val rest acc2
      else ctx.selectLoop cb dist_map radius_val rest acc

/-- The `for ... in iterate_constraint_sets()` loop of one geo tier,
including the (dead, as proven below) `seen_strict` skip guard.  Returns
the accepted result (if any) and the updated attempt counter. -/
def SearchCtx.tierLoop (ctx : SearchCtx) (candidates_all : List CandRow)
    (dist_map : List (Val × ℚ)) (geo_label : String) (radius_val : Option ℚ) :
    List Combo → Bool → ℕ → Except String (Option MatchResult) × ℕ
  | [], _, attempts => (.ok none, attempts)
  | cb :: rest, seen_strict, attempts =>
      if cb.is_strict = false ∧ ctx.radius_first_strict ∧ seen_strict = false then
        ctx.tierLoop candidates_all dist_map geo_label radius_val rest seen_strict attempts
      else
        let seen2 := if cb.is_strict then true else seen_strict
        let attempts2 := attempts + 1
        let selected := ctx.selectLoop cb dist_map radius_val candidates_all []
        if ctx.min_comps ≤ (selected.length : ℤ) then
          match finalize_result ctx.sqrtq ctx.subject ctx.meta0 ctx.baseline selected
              geo_label radius_val cb attempts2 with
          | .error e => (.error e, attempts2)
          | .ok r => (.ok (some r), attempts2)
        else ctx.tierLoop candidates_all dist_map geo_label radius_val rest seen2 attempts2

/-- The outer `for geo_label, radius_val, producer in geo_sequences` loop,
threading the attempt counter and the repository fetch counter. -/
def SearchCtx.tiersLoop (ctx : SearchCtx) :
    List (String × Option ℚ × GeoSrc) → ℕ → ℕ → Except String (Option MatchResult) × ℕ × ℕ
  | [], attempts, fetches => (.ok none, attempts, fetches)
  | (label, radius_val, src) :: rest, attempts, fetches =>
      match produce ctx.repo ctx.subject_account ctx.srow src with
      | (.error e, f) => (.error e, attempts, fetches + f)
      | (.ok candidates_all, f) =>
          let fetches2 := fetches + f
          let dist_map := build_dist_map ctx.hav ctx.srow candidates_all
          let combos := iterate_constraint_sets ctx.radius_first_strict SIZE_BANDS
            LOT_BANDS YEAR_BANDS BED_BATH_BANDS (storyTols ctx.srow)
            (poolModes ctx.srow) (garageModes ctx.srow)
          match ctx.tierLoop candidates_all dist_map label radius_val combos false attempts with
          | (.error e, a2) => (.error e, a2, fetches2)
          | (.ok (some r), a2) => (.ok (some r), a2, fetches2)
          | (.ok none, a2) => ctx.tiersLoop rest a2 fetches2

/-- `find_comps` from `engine.py`.  Returns the result (or the uncaught
exception), the cache state after the call, and the number of repository
fetches executed (subject query included).  `hav` and `sqrtq` abstract the
two transcendental helpers. -/
def find_comps (hav : ℚ → ℚ → ℚ → ℚ → ℚ) (sqrtq : ℚ → ℚ) (repo : Repo)
    (subject_account : String) (max_comps min_comps : ℤ)
    (radius_first_strict : Bool) (max_radius : Option ℚ) (cache : Cache) :
    Except String MatchResult × Cache × ℕ :=
  match repo.subjectRow subject_account with
  | none => (.error ("Subject account " ++ subject_account ++ " not found"), cache, 1)
  | some srow =>
      let subject := subjectOfRow srow
      let geo_sequences := geoSequences srow max_radius
      let cache_key : CacheKey :=
        (subject_account, max_comps, min_comps, radius_first_strict, max_radius)
      match cacheGet CACHE_MAX_ENTRIES cache_key cache with
      | (some v, cache2) => (.ok v, cache2, 1)
      | (none, cache2) =>
          let ctx : SearchCtx :=
            ⟨hav, sqrtq, repo, subject_account, max_comps, min_comps,
              radius_first_strict, srow, subject, baselineOf srow, meta0Of srow⟩
          match ctx.tiersLoop geo_sequences 0 1 with
          | (.error e, _, f) => (.error e, cache2, f)
          | (.ok (some r), _, f) =>
              (.ok r, cacheSet CACHE_MAX_ENTRIES cache_key r cache2, f)
          | (.ok none, attempts, f) =>
              match compute_pricing_stats sqrtq subject [] with
              | .error e => (.error e, cache2, f)
              | .ok ps =>
                  let m := meta0Of srow
                  let meta : Meta :=
                    { m with
                      attempts := attempts
                      baseline := some (baselineOf srow)
                      relaxed := some (relaxedOf m (baselineOf srow))
                      pricing_stats := some ps }
                  let r : MatchResult := ⟨subject, [], meta⟩
                  (.ok r, cacheSet CACHE_MAX_ENTRIES cache_key r cache2, f)

/-! ## Rounding lemmas -/

theorem roundHalfEven_le (n : ℤ) (q : ℚ) (h : q ≤ (n : ℚ)) : roundHalfEven q ≤ n := by
  unfold roundHalfEven
  simp only []
  have hfq : (⌊q⌋ : ℚ) ≤ q := Int.floor_le q
  have hfn : ⌊q⌋ ≤ n := by exact_mod_cast hfq.trans h
  split
  · exact hfn
  · split
    · next h1 h2 =>
      have hlt : (⌊q⌋ : ℚ) < (n : ℚ) := by linarith
      have : ⌊q⌋ < n := by exact_mod_cast hlt
      omega
    · next h1 h2 =>
      have hr : q - (⌊q⌋ : ℚ) = 1/2 := le_antisymm (not_lt.mp h2) (not_lt.mp h1)
      have hlt : (⌊q⌋ : ℚ) < (n : ℚ) := by linarith
      have : ⌊q⌋ < n := by exact_mod_cast hlt
      split
      · omega
      · omega

theorem roundHalfEven_ge (n : ℤ) (q : ℚ) (h : (n : ℚ) ≤ q) : n ≤ roundHalfEven q := by
  unfold roundHalfEven
  simp only []
  have hfn : n ≤ ⌊q⌋ := Int.le_floor.mpr h
  split
  · exact hfn
  · split
    · omega
    · split
      · exact hfn
      · omega

theorem pyRound_le (d : ℕ) (n : ℤ) (q : ℚ) (h : q ≤ (n : ℚ)) : pyRound d q ≤ (n : ℚ) := by
  unfold pyRound
  have hp : (0 : ℚ) < 10 ^ d := by positivity
  have h1 : q * 10 ^ d ≤ ((n * 10 ^ d : ℤ) : ℚ) := by
    push_cast
    exact mul_le_mul_of_nonneg_right h (le_of_lt hp)
  have h2 : roundHalfEven (q * 10 ^ d) ≤ n * 10 ^ d := roundHalfEven_le _ _ h1
  rw [div_le_iff₀ hp]
  calc ((roundHalfEven (q * 10 ^ d) : ℤ) : ℚ) ≤ ((n * 10 ^ d : ℤ) : ℚ) := by exact_mod_cast h2
    _ = (n : ℚ) * 10 ^ d := by push_cast; ring

theorem pyRound_ge (d : ℕ) (n : ℤ) (q : ℚ) (h : (n : ℚ) ≤ q) : (n : ℚ) ≤ pyRound d q := by
  unfold pyRound
  have hp : (0 : ℚ) < 10 ^ d := by positivity
  have h1 : ((n * 10 ^ d : ℤ) : ℚ) ≤ q * 10 ^ d := by
    push_cast
    exact mul_le_mul_of_nonneg_right h (le_of_lt hp)
  have h2 : n * 10 ^ d ≤ roundHalfEven (q * 10 ^ d) := roundHalfEven_ge _ _ h1
  rw [le_div_iff₀ hp]
  calc (n : ℚ) * 10 ^ d = ((n * 10 ^ d : ℤ) : ℚ) := by push_cast; ring
    _ ≤ _ := by exact_mod_cast h2

/-! ## Score lower bound (shared by C6 and C10) -/

theorem one_le_score_aux (p : ℚ) : 1 ≤ 100 * (1 - min (99/100) p) := by
  have := min_le_left (99/100 : ℚ) p
  linarith

/-- The `score < 0` floor of `compute_score` is never taken. -/
theorem compute_score_eq_round (r : CompRec) (s : SubjectRec) (w : Weights) :
    compute_score r s w =
      pyRound 2 (100 * (1 - min (99/100) (penaltyTotal r s w))) := by
  unfold compute_score
  simp only []
  rw [if_neg (by have := one_le_score_aux (penaltyTotal r s w); linarith)]

theorem one_le_compute_score (r : CompRec) (s : SubjectRec) (w : Weights) :
    1 ≤ compute_score r s w := by
  rw [compute_score_eq_round]
  have h1 := one_le_score_aux (penaltyTotal r s w)
  have h2 := pyRound_ge 2 1 (100 * (1 - min (99/100) (penaltyTotal r s w))) (by
    push_cast
    linarith)
  simpa using h2

/-- C10: the accumulated penalty is capped at 0.99 before the conversion
`100 * (1 - penalty)`, so `compute_score` always returns at least `1.0`,
never `0`, and the final floor-at-zero branch is unreachable (the returned
value is exactly the rounded uncapped conversion). -/
theorem compute_score_ge_one_policy (r : CompRec) (s : SubjectRec) (w : Weights) :
    1 ≤ compute_score r s w ∧ compute_score r s w ≠ 0 ∧
      compute_score r s w =
        pyRound 2 (100 * (1 - min (99/100) (penaltyTotal r s w))) := by
  refine ⟨one_le_compute_score r s w, ?ne, compute_score_eq_round r s w⟩
  have h1 := one_le_compute_score r s w
  intro h0
  rw [h0] at h1
  norm_num at h1

/-! ## C7: pool/garage scoring policy -/

/-- C7 (amended): in the pool scoring term (and independently the garage
term): both flags known and equal contributes zero; both known and unequal
contributes 0.5 × the pool_garage weight; subject's flag known but the
comparable's unknown contributes 0.25 × the weight; and when the subject's
own flag is unknown the contribution is zero (not 0.25 × weight). -/
theorem pool_garage_term_policy (r : CompRec) (s : SubjectRec) (w : Weights) :
    (s.has_pool.isTriKnown = true → r.has_pool.isTriKnown = true →
      r.has_pool.triIntVal = s.has_pool.triIntVal → poolTerm r s w = 0)
  ∧ (s.has_pool.isTriKnown = true → r.has_pool.isTriKnown = true →
      r.has_pool.triIntVal ≠ s.has_pool.triIntVal →
      poolTerm r s w = (w.pool_garage.getD (1/10)) * (1/2))
  ∧ (s.has_pool.isTriKnown = true → r.has_pool.isTriKnown = false →
      poolTerm r s w = (w.pool_garage.getD (1/10)) * (1/4))
  ∧ (s.has_pool.isTriKnown = false → poolTerm r s w = 0)
  ∧ (s.has_garage.isTriKnown = true → r.has_garage.isTriKnown = true →
      r.has_garage.triIntVal = s.has_garage.triIntVal → garageTerm r s w = 0)
  ∧ (s.has_garage.isTriKnown = true → r.has_garage.isTriKnown = true →
      r.has_garage.triIntVal ≠ s.has_garage.triIntVal →
      garageTerm r s w = (w.pool_garage.getD (1/10)) * (1/2))
  ∧ (s.has_garage.isTriKnown = true → r.has_garage.isTriKnown = false →
      garageTerm r s w = (w.pool_garage.getD (1/10)) * (1/4))
  ∧ (s.has_garage.isTriKnown = false → garageTerm r s w = 0) := by
  refine ⟨?_, ?_, ?_, ?_, ?_, ?_, ?_, ?_⟩ <;>
    intros <;>
    simp_all [poolTerm, garageTerm, POOL_GARAGE_MISSING_FACTOR]

/-- An all-NULL subject record. -/
def nullSubjectRec : SubjectRec :=
  ⟨.null, .null, .null, .null, .null, .null, .null, .null, .null, .null, .null,
    .null, .null, .null, .null, .null, .null, .null, .null, none⟩

/-- An all-NULL comparable record. -/
def nullCompRec : CompRec :=
  ⟨.null, .null, .null, .null, .null, .null, .null, .null, .null, .null, .null,
    .null, .null, .null, .null, .null, .null, none, none, none⟩

/-- A weight map with only the pool_garage weight set (to 1). -/
def wPoolOne : Weights := ⟨none, none, none, none, none, some 1⟩

/-- C7 counterexample: with the subject's pool flag unknown and the
comparable's known, the pool term is 0, not 0.25 × weight as the claim
states. -/
theorem pool_term_subject_unknown_cex :
    poolTerm { nullCompRec with has_pool := .int 1 } nullSubjectRec wPoolOne = 0 ∧
    Val.isTriKnown nullSubjectRec.has_pool = false ∧
    Val.isTriKnown (Val.int 1) = true ∧
    (wPoolOne.pool_garage.getD (1/10)) * (1/4) = 1/4 ∧
    (0 : ℚ) ≠ (1/4 : ℚ) := by
  refine ⟨?_, rfl, rfl, ?_, by norm_num⟩
  · simp [poolTerm, nullSubjectRec, Val.isTriKnown]
  · simp [wPoolOne]

/-! ## C5: malformed numeric candidate fields in `passes` -/

/-- C5 (amended): a malformed candidate year (non-empty but not all digits)
never rejects — the year dimension is skipped; but a malformed candidate
size or lot area (truthy, not `''`/`'0'`, yet unparsable) *rejects* the
candidate outright when that dimension's band is active and the subject has
a usable value, because the `except` handler returns `False`. -/
theorem passes_malformed_numeric_policy (srow : SubjectRow) (c : CandRow) (cb : Combo) :
    (c.eff.truthy = true → pyIsDigit c.eff = false →
      passesYear (pyint srow.eff) c cb.year_band = true)
  ∧ (∀ b band, cb.size_band = some band → pyfloat srow.im_sq_ft = some b → b ≠ 0 →
      c.im_sq_ft.truthyNotZeroStr = true → pyFloatVal? c.im_sq_ft = none →
      passes srow c cb = false)
  ∧ (∀ b band, cb.lot_band = some band → pyfloat srow.land_ar = some b → b ≠ 0 →
      c.land_ar.truthyNotZeroStr = true → pyFloatVal? c.land_ar = none →
      passes srow c cb = false) := by
  refine ⟨?_, ?_, ?_⟩
  · intro h1 h2
    unfold passesYear
    cases cb.year_band with
    | none => rfl
    | some band =>
        cases hpy : pyint srow.eff with
        | none => rfl
        | some b =>
            simp only []
            split
            · rfl
            · rw [if_neg]
              simp [h1, h2]
  · intro b band hband hbase hb0 htr hparse
    unfold passes
    have : passesSize (pyfloat srow.im_sq_ft) c cb.size_band = false := by
      unfold passesSize
      rw [hband, hbase]
      simp only []
      rw [if_neg hb0, if_pos htr, hparse]
    simp [this]
  · intro b band hband hbase hb0 htr hparse
    unfold passes
    have : passesLot (pyfloat srow.land_ar) c cb.lot_band = false := by
      unfold passesLot
      rw [hband, hbase]
      simp only []
      rw [if_neg hb0, if_pos htr, hparse]
    simp [this]

/-- An all-NULL subject row. -/
def nullSubjectRow : SubjectRow :=
  ⟨.null, .null, .null, .null, .null, .null, .null, .null, .null, .null, .null,
    .null, .null, .null, .null, .null, .null, .null, .null, .null⟩

/-- An all-NULL candidate row. -/
def nullCandRow : CandRow :=
  ⟨.null, .null, .null, .null, .null, .null, .null, .null, .null, .null, .null,
    .null, .null, .null, .null, .null, .null, .null, .null⟩

/-- A subject with a 1000 sq ft building and the tightest size band. -/
def srowSize : SubjectRow := { nullSubjectRow with im_sq_ft := .int 1000 }

def candMalformedSize : CandRow := { nullCandRow with im_sq_ft := .str "12x4" }

def cbSizeOnly : Combo := ⟨some (5/100), none, none, none, none, "any", "any", false⟩

/-- C5 counterexample: a candidate whose size field is the malformed string
`"12x4"` (non-empty, non-zero, unparsable) is rejected by `passes` with an
active size band, and the identical candidate with the field NULL passes —
so the conversion failure itself caused the rejection, contradicting the
claim that the dimension is treated as unknown. -/
theorem passes_malformed_size_rejected_cex :
    passes srowSize candMalformedSize cbSizeOnly = false ∧
    passes srowSize { candMalformedSize with im_sq_ft := Val.null } cbSizeOnly = true ∧
    Val.truthyNotZeroStr candMalformedSize.im_sq_ft = true ∧
    pyFloatVal? candMalformedSize.im_sq_ft = none := by
  refine ⟨?_, ?_, ?_, ?_⟩ <;> with_unfolding_all decide

/-- C5 witness: the amended policy applied to the concrete scenario — the
malformed year `"19x0"` is not rejected, while the malformed size `"12x4"`
is. -/
theorem passes_malformed_numeric_policy_witness :
    passesYear (pyint srowSize.eff) { nullCandRow with eff := .str "19x0" }
      cbSizeOnly.year_band = true ∧
    passes srowSize candMalformedSize cbSizeOnly = false := by
  constructor
  · exact (passes_malformed_numeric_policy srowSize
      { nullCandRow with eff := .str "19x0" } cbSizeOnly).1
      (by with_unfolding_all decide) (by with_unfolding_all decide)
  · exact (passes_malformed_numeric_policy srowSize candMalformedSize cbSizeOnly).2.1
      1000 (5/100) rfl (by with_unfolding_all decide) (by norm_num)
      (by with_unfolding_all decide) (by with_unfolding_all decide)

/-- C7 witness: the policy applied concretely — a definite mismatch costs
half the weight, a missing comparable flag a quarter. -/
theorem pool_garage_term_policy_witness :
    poolTerm { nullCompRec with has_pool := .int 0 }
      { nullSubjectRec with has_pool := .int 1 } wPoolOne =
      (wPoolOne.pool_garage.getD (1/10)) * (1/2) ∧
    poolTerm nullCompRec { nullSubjectRec with has_pool := .int 1 } wPoolOne =
      (wPoolOne.pool_garage.getD (1/10)) * (1/4) := by
  constructor
  · exact (pool_garage_term_policy _ _ _).2.1 rfl rfl (by decide)
  · exact (pool_garage_term_policy _ _ _).2.2.1 rfl rfl

/-! ## C8: the stories constraint -/

/-- A successfully parsed cell is neither NULL nor blank. -/
theorem pyIntVal?_some_gate (v : Val) (n : ℤ) (h : pyIntVal? v = some n) :
    v ≠ .null ∧ strNotBlank v = true ∧ ¬(v = .null ∨ v = .str "") := by
  cases v with
  | null => simp [pyIntVal?] at h
  | str s =>
      have hs : s.trim ≠ "" := by
        intro hs0
        rw [pyIntVal?, hs0] at h
        have : pyIntString? "" = none := by decide
        rw [this] at h
        exact Option.noConfusion h
  -- a blank string trims to the empty string
      refine ⟨by simp, by simpa [strNotBlank] using hs, ?_⟩
      rintro (h1 | h1)
      · exact Val.noConfusion h1
      · injection h1 with h2
        rw [h2] at hs
        exact hs (by with_unfolding_all decide)
  | int m => exact ⟨by simp, rfl, by simp⟩
  | rat q => exact ⟨by simp, rfl, by simp⟩

/-- C8: with a bounded stories band, the constraint is inactive when the
subject's story cell is NULL or blank; when active, a candidate whose story
count cannot be read as an integer is rejected; and when both story counts
parse, the candidate passes the stories dimension iff the absolute
difference is at most the tolerance. -/
theorem stories_constraint_policy (s : Val) (c : CandRow) (tol : ℤ) :
    (¬(s ≠ .null ∧ strNotBlank s = true) → passesStories s c (some tol) = true)
  ∧ (s ≠ .null → strNotBlank s = true → pyIntVal? c.stories = none →
      passesStories s c (some tol) = false)
  ∧ (∀ si ci, pyIntVal? s = some si → pyIntVal? c.stories = some ci →
      (passesStories s c (some tol) = true ↔ |ci - si| ≤ tol)) := by
  refine ⟨?_, ?_, ?_⟩
  · intro hgate
    unfold passesStories
    simp only []
    rw [if_neg]
    intro ⟨h1, h2⟩
    exact hgate ⟨h1, h2⟩
  · intro h1 h2 hparse
    unfold passesStories
    simp only []
    rw [if_pos ⟨h1, h2⟩]
    split
    · rfl
    · rw [hparse]
  · intro si ci hs hc
    have hgate := pyIntVal?_some_gate s si hs
    have hcgate := pyIntVal?_some_gate c.stories ci hc
    unfold passesStories
    simp only []
    rw [if_pos ⟨hgate.1, hgate.2.1⟩, if_neg hcgate.2.2, hs, hc]
    simp

/-- C8 witness: a subject with 2 stories, tolerance 1 — a candidate with 3
stories passes, one with an unreadable story cell is rejected, and with a
blank subject cell the constraint imposes nothing. -/
theorem stories_constraint_policy_witness :
    (passesStories (.int 2) { nullCandRow with stories := .str "3" } (some 1) = true ↔
      |(3 : ℤ) - 2| ≤ 1) ∧
    passesStories (.int 2) { nullCandRow with stories := .str "x" } (some 1) = false ∧
    passesStories (.str " ") { nullCandRow with stories := .str "9" } (some 1) = true := by
  refine ⟨?_, ?_, ?_⟩
  · exact (stories_constraint_policy (.int 2) { nullCandRow with stories := .str "3" } 1).2.2
      2 3 (by with_unfolding_all decide) (by with_unfolding_all decide)
  · exact (stories_constraint_policy (.int 2) { nullCandRow with stories := .str "x" } 1).2.1
      (by with_unfolding_all decide) (by with_unfolding_all decide) (by with_unfolding_all decide)
  · exact (stories_constraint_policy (.str " ") { nullCandRow with stories := .str "9" } 1).1
      (by with_unfolding_all decide)

/-! ## C9: the LRU cache -/

theorem removeFirst_eq_key (k : CacheKey) (c : Cache) (e : CacheKey × MatchResult)
    (rest : Cache) (h : removeFirst k c = some (e, rest)) : e.1 = k := by
  induction c generalizing rest with
  | nil => simp [removeFirst] at h
  | cons x xs ih =>
      rw [removeFirst] at h
      split at h
      · next heq => cases h; exact heq
      · cases hr : removeFirst k xs with
        | none => rw [hr] at h; simp at h
        | some p =>
            rw [hr] at h
            cases h
            exact ih p.2 hr

theorem removeFirst_mem (k : CacheKey) (c : Cache) (e : CacheKey × MatchResult)
    (rest : Cache) (h : removeFirst k c = some (e, rest)) : e ∈ c := by
  induction c generalizing rest with
  | nil => simp [removeFirst] at h
  | cons x xs ih =>
      rw [removeFirst] at h
      split at h
      · cases h; exact List.mem_cons_self _ _
      · cases hr : removeFirst k xs with
        | none => rw [hr] at h; simp at h
        | some p =>
            rw [hr] at h
            cases h
            exact List.mem_cons_of_mem _ (ih p.2 hr)

theorem removeFirst_length (k : CacheKey) (c : Cache) (e : CacheKey × MatchResult)
    (rest : Cache) (h : removeFirst k c = some (e, rest)) :
    c.length = rest.length + 1 := by
  induction c generalizing rest with
  | nil => simp [removeFirst] at h
  | cons x xs ih =>
      rw [removeFirst] at h
      split at h
      · cases h; rfl
      · cases hr : removeFirst k xs with
        | none => rw [hr] at h; simp at h
        | some p =>
            rw [hr] at h
            cases h
            simp [ih p.2 hr]

theorem removeFirst_rest_subset (k : CacheKey) (c : Cache) (e : CacheKey × MatchResult)
    (rest : Cache) (h : removeFirst k c = some (e, rest)) : ∀ x ∈ rest, x ∈ c := by
  induction c generalizing rest with
  | nil => simp [removeFirst] at h
  | cons x xs ih =>
      rw [removeFirst] at h
      split at h
      · cases h; exact fun y hy => List.mem_cons_of_mem _ hy
      · cases hr : removeFirst k xs with
        | none => rw [hr] at h; simp at h
        | some p =>
            rw [hr] at h
            cases h
            intro y hy
            rcases List.mem_cons.mp hy with h1 | h1
            · rw [h1]; exact List.mem_cons_self _ _
            · exact List.mem_cons_of_mem _ (ih p.2 hr y h1)

theorem removeFirst_none (k : CacheKey) (c : Cache) (h : removeFirst k c = none) :
    ∀ x ∈ c, x.1 ≠ k := by
  induction c with
  | nil => intro x hx; simp at hx
  | cons y ys ih =>
      rw [removeFirst] at h
      split at h
      · simp at h
      · next hne =>
          cases hr : removeFirst k ys with
          | none =>
              intro x hx
              rcases List.mem_cons.mp hx with h1 | h1
              · rw [h1]; exact hne
              · exact ih hr x h1
          | some p => rw [hr] at h; simp at h

theorem removeFirst_nodup_rest (k : CacheKey) (c : Cache)
    (hnd : (c.map Prod.fst).Nodup) (e : CacheKey × MatchResult) (rest : Cache)
    (h : removeFirst k c = some (e, rest)) : ∀ x ∈ rest, x.1 ≠ k := by
  induction c generalizing rest with
  | nil => simp [removeFirst] at h
  | cons y ys ih =>
      rw [List.map_cons, List.nodup_cons] at hnd
      rw [removeFirst] at h
      split at h
      · next heq =>
          cases h
          intro x hx hxk
          exact hnd.1 (by
            rw [heq, ← hxk]
            exact List.mem_map_of_mem Prod.fst hx)
      · next hne =>
          cases hr : removeFirst k ys with
          | none => rw [hr] at h; simp at h
          | some p =>
              rw [hr] at h
              cases h
              intro x hx
              rcases List.mem_cons.mp hx with h1 | h1
              · rw [h1]; exact hne
              · exact ih hnd.2 p.2 hr x h1

/-- C9: the cache policy.  With a positive capacity: `Set` keeps the size
within capacity, `Get` preserves it and promotes a hit to the front, `Set`
inserts at the front, removes any other entry with the same key, and when
the key is new and the cache is full it evicts exactly the last
(least-recently-used) entry.  With capacity ≤ 0 both operations are
no-ops and every lookup misses. -/
theorem cache_lru_policy (me : ℤ) (k : CacheKey) (v : MatchResult) (c : Cache) :
    (me ≤ 0 → cacheGet me k c = (none, c) ∧ cacheSet me k v c = c)
  ∧ (0 < me → (c.length : ℤ) ≤ me →
      ((cacheSet me k v c).length : ℤ) ≤ me ∧ (cacheGet me k c).2.length = c.length)
  ∧ (0 < me → ∀ e rest, removeFirst k c = some (e, rest) →
      e.1 = k ∧ cacheGet me k c = (some e.2, e :: rest))
  ∧ (0 < me → (cacheSet me k v c).head? = some (k, v))
  ∧ (0 < me → removeFirst k c = none → (c.length : ℤ) = me →
      cacheSet me k v c = ((k, v) :: c).dropLast)
  ∧ (0 < me → (c.map Prod.fst).Nodup → ∀ e ∈ (cacheSet me k v c).tail, e.1 ≠ k) := by
  refine ⟨?_, ?_, ?_, ?_, ?_, ?_⟩
  · intro hme
    constructor
    · unfold cacheGet; rw [if_pos hme]
    · unfold cacheSet; rw [if_pos hme]
  · intro hme hlen
    constructor
    · unfold cacheSet
      rw [if_neg (by omega)]
      simp only []
      have hc1 : ∀ c1 : Cache, (c1.length : ℤ) ≤ (c.length : ℤ) →
          ((if me < (((k, v) :: c1).length : ℤ) then ((k, v) :: c1).dropLast
            else (k, v) :: c1).length : ℤ) ≤ me := by
        intro c1 h1
        split
        · next hgt =>
            rw [List.length_dropLast]
            push_cast [List.length_cons]
            push_cast [List.length_cons] at hgt
            omega
        · next hgt =>
            push_cast [List.length_cons] at hgt ⊢
            omega
      cases hr : removeFirst k c with
      | none => exact hc1 c le_rfl
      | some p =>
          exact hc1 p.2 (by
            have := removeFirst_length k c p.1 p.2 (by rw [hr])
            omega)
    · unfold cacheGet
      rw [if_neg (by omega)]
      cases hr : removeFirst k c with
      | none => rfl
      | some p =>
          simp only []
          have := removeFirst_length k c p.1 p.2 (by rw [hr])
          simp [this]
  · intro hme e rest hr
    refine ⟨removeFirst_eq_key k c e rest hr, ?_⟩
    unfold cacheGet
    rw [if_neg (by omega), hr]
  · intro hme
    unfold cacheSet
    rw [if_neg (by omega)]
    simp only []
    have hhead : ∀ c1 : Cache,
        (if me < (((k, v) :: c1).length : ℤ) then ((k, v) :: c1).dropLast
          else (k, v) :: c1).head? = some (k, v) := by
      intro c1
      split
      · next hgt =>
          cases c1 with
          | nil => simp [List.length_cons] at hgt; omega
          | cons x xs => rw [List.dropLast_cons₂]; rfl
      · rfl
    cases hr : removeFirst k c with
    | none => exact hhead c
    | some p => exact hhead p.2
  · intro hme hr hlen
    unfold cacheSet
    rw [if_neg (by omega), hr]
    simp only []
    rw [if_pos (by push_cast [List.length_cons]; omega)]
  · intro hme hnd
    unfold cacheSet
    rw [if_neg (by omega)]
    simp only []
    have htail : ∀ c1 : Cache, (∀ x ∈ c1, x.1 ≠ k) →
        ∀ e ∈ (if me < (((k, v) :: c1).length : ℤ) then ((k, v) :: c1).dropLast
          else (k, v) :: c1).tail, e.1 ≠ k := by
      intro c1 h1
      split
      · next hgt =>
          cases c1 with
          | nil => intro e he; simp at he
          | cons x xs =>
              rw [List.dropLast_cons₂]
              intro e he
              exact h1 e ((List.dropLast_sublist (x :: xs)).subset he)
      · exact fun e he => h1 e he
    cases hr : removeFirst k c with
    | none => exact htail c (removeFirst_none k c hr)
    | some p =>
        exact htail p.2 (removeFirst_nodup_rest k c hnd p.1 p.2 (by rw [hr]))

/-- C9 witness: a concrete three-entry cache at capacity 2 under the
default configuration's positivity, exercising hit-promotion and
eviction. -/
theorem cache_lru_policy_witness :
    (cacheGet (-1) ("a", 1, 1, false, none) [] = (none, []) ∧
      cacheSet (-1) ("a", 1, 1, false, none) ⟨nullSubjectRec, [], meta0Of nullSubjectRow⟩ [] = []) ∧
    ((cacheSet 2 ("a", 1, 1, false, none) ⟨nullSubjectRec, [], meta0Of nullSubjectRow⟩ []).length : ℤ) ≤ 2 := by
  constructor
  · exact (cache_lru_policy (-1) ("a", 1, 1, false, none)
      ⟨nullSubjectRec, [], meta0Of nullSubjectRow⟩ []).1 (by norm_num)
  · exact ((cache_lru_policy 2 ("a", 1, 1, false, none)
      ⟨nullSubjectRec, [], meta0Of nullSubjectRow⟩ []).2.1 (by norm_num) (by simp)).1

/-! ## C6: score range and the identical-comparable case -/

/-- Every weight present in the map is nonnegative. -/
def WeightsNonneg (w : Weights) : Prop :=
  (∀ q ∈ w.distance, 0 ≤ q) ∧ (∀ q ∈ w.size, 0 ≤ q) ∧ (∀ q ∈ w.year, 0 ≤ q) ∧
    (∀ q ∈ w.beds_baths, 0 ≤ q) ∧ (∀ q ∈ w.stories, 0 ≤ q) ∧
    (∀ q ∈ w.pool_garage, 0 ≤ q)

theorem getD_nonneg (o : Option ℚ) (d : ℚ) (hd : 0 ≤ d) (h : ∀ q ∈ o, 0 ≤ q) :
    0 ≤ o.getD d := by
  cases o with
  | none => simpa using hd
  | some q => exact h q rfl

theorem distanceTerm_nonneg (r : CompRec) (w : Weights)
    (hw : 0 ≤ w.distance.getD (4/10))
    (hd : ∀ d, r.distance_miles = some d → 0 ≤ d) : 0 ≤ distanceTerm r w := by
  unfold distanceTerm
  cases h : r.distance_miles with
  | none => exact le_refl 0
  | some d =>
      exact mul_nonneg hw (le_min zero_le_one (div_nonneg (hd d h) (by norm_num)))

theorem sizeTerm_nonneg (r : CompRec) (s : SubjectRec) (w : Weights)
    (hw : 0 ≤ w.size.getD (25/100))
    (hb : ∀ b, pyfloat s.building_area = some b → 0 ≤ b) : 0 ≤ sizeTerm r s w := by
  unfold sizeTerm
  cases hp : pyfloat s.building_area with
  | none => exact le_refl 0
  | some b =>
      simp only []
      split
      · cases hc : pyFloatVal? r.building_area with
        | none => exact le_refl 0
        | some c =>
            simp only []
            split
            · exact le_refl 0
            · exact mul_nonneg hw (le_min zero_le_one
                (div_nonneg (div_nonneg (abs_nonneg _) (hb b hp)) (by norm_num)))
      · exact mul_nonneg hw (by norm_num [MISSING_PENALTY_FACTOR])

theorem yearTerm_nonneg (r : CompRec) (s : SubjectRec) (w : Weights)
    (hw : 0 ≤ w.year.getD (1/10)) : 0 ≤ yearTerm r s w := by
  unfold yearTerm
  cases pyint s.build_year with
  | none => exact le_refl 0
  | some b =>
      simp only []
      split
      · cases pyIntVal? r.build_year with
        | none => exact le_refl 0
        | some cy =>
            exact mul_nonneg hw (le_min zero_le_one
              (div_nonneg (Int.cast_nonneg.mpr (abs_nonneg _)) (by norm_num)))
      · exact mul_nonneg hw (by norm_num [MISSING_PENALTY_FACTOR])

theorem bedsTerm_nonneg (r : CompRec) (s : SubjectRec) (w : Weights)
    (hw : 0 ≤ w.beds_baths.getD (1/10)) : 0 ≤ bedsTerm r s w := by
  unfold bedsTerm
  cases pyfloat s.bedrooms with
  | none => exact le_refl 0
  | some b =>
      simp only []
      split
      · cases pyFloatVal? r.bedrooms with
        | none => exact le_refl 0
        | some c =>
            exact mul_nonneg hw (div_nonneg
              (le_min (by norm_num) (abs_nonneg _)) (by norm_num))
      · exact mul_nonneg hw (by norm_num [MISSING_PENALTY_FACTOR])

theorem bathsTerm_nonneg (r : CompRec) (s : SubjectRec) (w : Weights)
    (hw : 0 ≤ w.beds_baths.getD (1/10)) : 0 ≤ bathsTerm r s w := by
  unfold bathsTerm
  cases pyfloat s.bathrooms with
  | none => exact le_refl 0
  | some b =>
      simp only []
      split
      · cases pyFloatVal? r.bathrooms with
        | none => exact le_refl 0
        | some c =>
            exact mul_nonneg hw (div_nonneg
              (le_min (by norm_num) (abs_nonneg _)) (by norm_num))
      · exact mul_nonneg hw (by norm_num [MISSING_PENALTY_FACTOR])

theorem storiesTerm_nonneg (r : CompRec) (s : SubjectRec) (w : Weights)
    (hw : 0 ≤ w.stories.getD (5/100)) : 0 ≤ storiesTerm r s w := by
  unfold storiesTerm
  cases pyint s.stories with
  | none => exact le_refl 0
  | some b =>
      simp only []
      split
      · cases pyIntVal? r.stories with
        | none => exact le_refl 0
        | some c => exact mul_nonneg hw (le_min zero_le_one (Int.cast_nonneg.mpr (abs_nonneg _)))
      · exact mul_nonneg hw (by norm_num [MISSING_PENALTY_FACTOR])

theorem poolTerm_nonneg (r : CompRec) (s : SubjectRec) (w : Weights)
    (hw : 0 ≤ w.pool_garage.getD (1/10)) : 0 ≤ poolTerm r s w := by
  unfold poolTerm
  split
  · split
    · split
      · exact mul_nonneg hw (by norm_num)
      · exact le_refl 0
    · exact mul_nonneg hw (by norm_num [POOL_GARAGE_MISSING_FACTOR])
  · exact le_refl 0

theorem garageTerm_nonneg (r : CompRec) (s : SubjectRec) (w : Weights)
    (hw : 0 ≤ w.pool_garage.getD (1/10)) : 0 ≤ garageTerm r s w := by
  unfold garageTerm
  split
  · split
    · split
      · exact mul_nonneg hw (by norm_num)
      · exact le_refl 0
    · exact mul_nonneg hw (by norm_num [POOL_GARAGE_MISSING_FACTOR])
  · exact le_refl 0

theorem penaltyTotal_nonneg (r : CompRec) (s : SubjectRec) (w : Weights)
    (hw : WeightsNonneg w) (hd : ∀ d, r.distance_miles = some d → 0 ≤ d)
    (hb : ∀ b, pyfloat s.building_area = some b → 0 ≤ b) :
    0 ≤ penaltyTotal r s w := by
  obtain ⟨h1, h2, h3, h4, h5, h6⟩ := hw
  unfold penaltyTotal
  have d1 := distanceTerm_nonneg r w (getD_nonneg _ _ (by norm_num) h1) hd
  have d2 := sizeTerm_nonneg r s w (getD_nonneg _ _ (by norm_num) h2) hb
  have d3 := yearTerm_nonneg r s w (getD_nonneg _ _ (by norm_num) h3)
  have d4 := bedsTerm_nonneg r s w (getD_nonneg _ _ (by norm_num) h4)
  have d5 := bathsTerm_nonneg r s w (getD_nonneg _ _ (by norm_num) h4)
  have d6 := storiesTerm_nonneg r s w (getD_nonneg _ _ (by norm_num) h5)
  have d7 := poolTerm_nonneg r s w (getD_nonneg _ _ (by norm_num) h6)
  have d8 := garageTerm_nonneg r s w (getD_nonneg _ _ (by norm_num) h6)
  linarith

/-- `_float` succeeding implies the bare `float(...)` conversion succeeds
with the same value. -/
theorem pyfloat_to_val (v : Val) (b : ℚ) (h : pyfloat v = some b) :
    pyFloatVal? v = some b := by
  cases v with
  | null => simp [pyfloat] at h
  | str s =>
      rw [pyfloat] at h
      split at h
      · exact Option.noConfusion h
      · exact h
  | int n =>
      rw [pyfloat] at h
      split at h
      · exact Option.noConfusion h
      · exact h
  | rat q => exact h

/-- `_float` succeeding implies the value is neither `None` nor `''`. -/
theorem pyfloat_notNoneEmpty (v : Val) (b : ℚ) (h : pyfloat v = some b) :
    v.notNoneEmpty = true := by
  cases v with
  | null => simp [pyfloat] at h
  | str s =>
      rw [pyfloat] at h
      split at h
      · exact Option.noConfusion h
      · next hs =>
          simp only [Val.notNoneEmpty]
          simp only [not_or] at hs
          refine decide_eq_true ⟨by simp, ?_⟩
          intro he
          injection he with he2
          rw [he2] at hs
          exact hs.1 (by with_unfolding_all decide)
  | int n => rfl
  | rat q => rfl

/-- `_int` succeeding implies the bare `int(...)` conversion succeeds with
the same value. -/
theorem pyint_to_val (v : Val) (y : ℤ) (h : pyint v = some y) :
    pyIntVal? v = some y := by
  cases v with
  | null => simp [pyint] at h
  | str s =>
      rw [pyint] at h
      split at h
      · exact h
      · exact Option.noConfusion h
  | int n =>
      rw [pyint] at h
      split at h
      · exact h
      · exact Option.noConfusion h
  | rat q => simp [pyint] at h

theorem distanceTerm_zero (r : CompRec) (w : Weights)
    (h : r.distance_miles = some 0) : distanceTerm r w = 0 := by
  unfold distanceTerm
  rw [h]
  simp only []
  have h0 : (0 : ℚ) / 15 = 0 := by norm_num
  rw [h0, min_eq_right (by norm_num : (0:ℚ) ≤ 1), mul_zero]

theorem sizeTerm_zero (r : CompRec) (s : SubjectRec) (w : Weights)
    (heq : r.building_area = s.building_area)
    (hsz : ∀ b, pyfloat s.building_area = some b →
      Val.truthyNotZeroStr s.building_area = true) : sizeTerm r s w = 0 := by
  unfold sizeTerm
  cases hp : pyfloat s.building_area with
  | none => rfl
  | some b =>
      simp only [heq]
      rw [if_pos (by rw [hsz b hp]), pyfloat_to_val _ _ hp]
      simp only []
      split
      · rfl
      · rw [sub_self, abs_zero, zero_div, zero_div,
          min_eq_right (by norm_num : (0:ℚ) ≤ 1), mul_zero]

theorem yearTerm_zero (r : CompRec) (s : SubjectRec) (w : Weights)
    (heq : r.build_year = s.build_year)
    (hyr : ∀ y, pyint s.build_year = some y →
      s.build_year.truthy = true ∧ pyIsDigit s.build_year = true) :
    yearTerm r s w = 0 := by
  unfold yearTerm
  cases hp : pyint s.build_year with
  | none => rfl
  | some y =>
      simp only [heq]
      rw [if_pos (by rw [(hyr y hp).1, (hyr y hp).2]; exact ⟨rfl, rfl⟩),
        pyint_to_val _ _ hp]
      simp only []
      rw [sub_self, abs_zero]
      norm_num

theorem bedsTerm_zero (r : CompRec) (s : SubjectRec) (w : Weights)
    (heq : r.bedrooms = s.bedrooms) : bedsTerm r s w = 0 := by
  unfold bedsTerm
  cases hp : pyfloat s.bedrooms with
  | none => rfl
  | some b =>
      simp only [heq]
      rw [if_pos (by rw [pyfloat_notNoneEmpty _ _ hp]), pyfloat_to_val _ _ hp]
      simp only []
      rw [sub_self, abs_zero, min_eq_right (by norm_num : (0:ℚ) ≤ 2)]
      norm_num

theorem bathsTerm_zero (r : CompRec) (s : SubjectRec) (w : Weights)
    (heq : r.bathrooms = s.bathrooms) : bathsTerm r s w = 0 := by
  unfold bathsTerm
  cases hp : pyfloat s.bathrooms with
  | none => rfl
  | some b =>
      simp only [heq]
      rw [if_pos (by rw [pyfloat_notNoneEmpty _ _ hp]), pyfloat_to_val _ _ hp]
      simp only []
      rw [sub_self, abs_zero, min_eq_right (by norm_num : (0:ℚ) ≤ 2)]
      norm_num

theorem storiesTerm_zero (r : CompRec) (s : SubjectRec) (w : Weights)
    (heq : r.stories = s.stories) : storiesTerm r s w = 0 := by
  unfold storiesTerm
  cases hp : pyint s.stories with
  | none => rfl
  | some y =>
      have hval := pyint_to_val _ _ hp
      have hgate := pyIntVal?_some_gate s.stories y hval
      simp only [heq]
      rw [if_pos ?gate, hval]
      case gate =>
        simp only [Val.notNoneEmpty]
        refine decide_eq_true ⟨?_, ?_⟩
        · simp [hgate.1]
        · intro he
          exact hgate.2.2 (Or.inr he)
      simp only []
      rw [sub_self, abs_zero]
      norm_num

theorem poolTerm_zero (r : CompRec) (s : SubjectRec) (w : Weights)
    (heq : r.has_pool = s.has_pool) : poolTerm r s w = 0 := by
  unfold poolTerm
  rw [heq]
  simp
  intro h1 h2
  rw [h1] at h2
  exact absurd h2 (by simp)

theorem garageTerm_zero (r : CompRec) (s : SubjectRec) (w : Weights)
    (heq : r.has_garage = s.has_garage) : garageTerm r s w = 0 := by
  unfold garageTerm
  rw [heq]
  simp
  intro h1 h2
  rw [h1] at h2
  exact absurd h2 (by simp)

/-- C6 (amended): for nonnegative weight maps (and physically meaningful
records: nonnegative distance and subject size), `compute_score` lies in
`[0, 100]`; and a comparable whose stored attributes equal the subject's
cleanly-recorded attributes at distance zero scores exactly `100.0`. -/
theorem compute_score_range_and_identical (r : CompRec) (s : SubjectRec) (w : Weights) :
    (WeightsNonneg w → (∀ d, r.distance_miles = some d → 0 ≤ d) →
      (∀ b, pyfloat s.building_area = some b → 0 ≤ b) →
      0 ≤ compute_score r s w ∧ compute_score r s w ≤ 100)
  ∧ (r.building_area = s.building_area → r.build_year = s.build_year →
      r.bedrooms = s.bedrooms → r.bathrooms = s.bathrooms → r.stories = s.stories →
      r.has_pool = s.has_pool → r.has_garage = s.has_garage →
      r.distance_miles = some 0 →
      (∀ b, pyfloat s.building_area = some b →
        Val.truthyNotZeroStr s.building_area = true) →
      (∀ y, pyint s.build_year = some y →
        s.build_year.truthy = true ∧ pyIsDigit s.build_year = true) →
      compute_score r s w = 100) := by
  constructor
  · intro hw hd hb
    constructor
    · have := one_le_compute_score r s w
      linarith
    · rw [compute_score_eq_round]
      have hp := penaltyTotal_nonneg r s w hw hd hb
      have hmin : 0 ≤ min (99/100) (penaltyTotal r s w) :=
        le_min (by norm_num) hp
      have hle : 100 * (1 - min (99/100) (penaltyTotal r s w)) ≤ (100 : ℚ) := by
        linarith
      have h2 := pyRound_le 2 100
        (100 * (1 - min (99/100) (penaltyTotal r s w))) (by push_cast; linarith)
      simpa using h2
  · intro h1 h2 h3 h4 h5 h6 h7 h8 h9 h10
    have hzero : penaltyTotal r s w = 0 := by
      unfold penaltyTotal
      rw [distanceTerm_zero r w h8, sizeTerm_zero r s w h1 h9,
        yearTerm_zero r s w h2 h10, bedsTerm_zero r s w h3, bathsTerm_zero r s w h4,
        storiesTerm_zero r s w h5, poolTerm_zero r s w h6, garageTerm_zero r s w h7]
      ring
    rw [compute_score_eq_round, hzero,
      min_eq_right (by norm_num : (0:ℚ) ≤ 99/100)]
    have hle := pyRound_le 2 100 (100 * (1 - 0) : ℚ) (by push_cast; linarith)
    have hge := pyRound_ge 2 100 (100 * (1 - 0) : ℚ) (by push_cast; linarith)
    have : ((100 : ℤ) : ℚ) = (100 : ℚ) := by push_cast; rfl
    rw [this] at hle hge
    linarith

/-- A weight map whose distance weight is negative. -/
def wNegDistance : Weights := ⟨some (-1), none, none, none, none, none⟩

/-- C6 counterexample: with the (perfectly well-typed) weight map
`{'distance': -1}` and a comparable 15 miles away, `compute_score` returns
`200.0`, outside `[0, 100]` — the claim fails for arbitrary weight maps. -/
theorem compute_score_negative_weight_cex :
    compute_score { nullCompRec with distance_miles := some 15 } nullSubjectRec
      wNegDistance = 200 ∧ ¬((200 : ℚ) ≤ 100) := by
  constructor
  · with_unfolding_all decide
  · norm_num

/-- The identical-comparable scenario used by the C6 witness. -/
def subjIdent : SubjectRec :=
  { nullSubjectRec with
    building_area := .str "1000"
    build_year := .str "1990"
    bedrooms := .int 3
    bathrooms := .rat (5/2)
    stories := .int 2
    has_pool := .int 1
    has_garage := .int 0 }

def recIdent : CompRec :=
  { nullCompRec with
    building_area := .str "1000"
    build_year := .str "1990"
    bedrooms := .int 3
    bathrooms := .rat (5/2)
    stories := .int 2
    has_pool := .int 1
    has_garage := .int 0
    distance_miles := some 0 }

/-- C6 witness: the amended claim applied to the default weights and a
concrete identical comparable. -/
theorem compute_score_range_and_identical_witness :
    (0 ≤ compute_score recIdent subjIdent SCORING_WEIGHTS ∧
      compute_score recIdent subjIdent SCORING_WEIGHTS ≤ 100) ∧
    compute_score recIdent subjIdent SCORING_WEIGHTS = 100 := by
  constructor
  · exact (compute_score_range_and_identical recIdent subjIdent SCORING_WEIGHTS).1
      (by
        refine ⟨?_, ?_, ?_, ?_, ?_, ?_⟩ <;>
          · intro q hq
            simp only [SCORING_WEIGHTS, Option.mem_def, Option.some.injEq] at hq
            rw [← hq]
            norm_num)
      (by
        intro d hd
        simp only [recIdent, nullCompRec] at hd
        injection hd with hd2
        rw [← hd2])
      (by
        intro b hb
        have : pyfloat subjIdent.building_area = some 1000 := by
          with_unfolding_all decide
        rw [this] at hb
        injection hb with hb2
        rw [← hb2]
        norm_num)
  · exact (compute_score_range_and_identical recIdent subjIdent SCORING_WEIGHTS).2
      rfl rfl rfl rfl rfl rfl rfl rfl
      (by
        intro b hb
        with_unfolding_all decide)
      (by
        intro y hy
        constructor <;> with_unfolding_all decide)

/-! ## C1: the strict-first flag and within-tier relaxation -/

/-- The per-tier combination loop with the `seen_strict` skip guard removed:
every combination in the list is attempted in order.  Comparing `tierLoop`
against this function shows the guard is dead code. -/
def SearchCtx.noSkipTierLoop (ctx : SearchCtx) (candidates_all : List CandRow)
    (dist_map : List (Val × ℚ)) (geo_label : String) (radius_val : Option ℚ) :
    List Combo → ℕ → Except String (Option MatchResult) × ℕ
  | [], attempts => (.ok none, attempts)
  | cb :: rest, attempts =>
      let attempts2 := attempts + 1
      let selected := ctx.selectLoop cb dist_map radius_val candidates_all []
      if ctx.min_comps ≤ (selected.length : ℤ) then
        match finalize_result ctx.sqrtq ctx.subject ctx.meta0 ctx.baseline selected
            geo_label radius_val cb attempts2 with
        | .error e => (.error e, attempts2)
        | .ok r => (.ok (some r), attempts2)
      else ctx.noSkipTierLoop candidates_all dist_map geo_label radius_val rest attempts2

/-- Once `seen_strict` is set, `tierLoop` never skips a combination. -/
theorem tierLoop_seen_eq_noSkip (ctx : SearchCtx) (cands : List CandRow)
    (dm : List (Val × ℚ)) (lbl : String) (rv : Option ℚ) :
    ∀ (combos : List Combo) (a : ℕ),
      ctx.tierLoop cands dm lbl rv combos true a =
        ctx.noSkipTierLoop cands dm lbl rv combos a := by
  intro combos
  induction combos with
  | nil => intro a; rfl
  | cons cb rest ih =>
      intro a
      rw [SearchCtx.tierLoop, SearchCtx.noSkipTierLoop]
      rw [if_neg (by simp)]
      simp only []
      split
      · rfl
      · have hseen : (if cb.is_strict then true else true) = true := by
          split <;> rfl
        rw [hseen, ih]

/-- C1 (amended): with `radius_first_strict` set, the engine tries the
single tightest combination first within each tier, but when it falls short
of `min_comps` it does **not** advance to the next geographic tier — it
continues with every combination of the full relaxed Cartesian product
inside the same tier (the `seen_strict` skip guard never fires). -/
theorem strict_first_relaxes_within_tier (ctx : SearchCtx) (cands : List CandRow)
    (dm : List (Val × ℚ)) (lbl : String) (rv : Option ℚ) (a : ℕ)
    (hrfs : ctx.radius_first_strict = true) :
    ctx.tierLoop cands dm lbl rv
      (iterate_constraint_sets true SIZE_BANDS LOT_BANDS YEAR_BANDS BED_BATH_BANDS
        (storyTols ctx.srow) (poolModes ctx.srow) (garageModes ctx.srow)) false a =
    ctx.noSkipTierLoop cands dm lbl rv
      (iterate_constraint_sets true SIZE_BANDS LOT_BANDS YEAR_BANDS BED_BATH_BANDS
        (storyTols ctx.srow) (poolModes ctx.srow) (garageModes ctx.srow)) a := by
  rw [iterate_constraint_sets]
  rw [if_pos rfl, List.singleton_append]
  rw [SearchCtx.tierLoop, SearchCtx.noSkipTierLoop]
  rw [if_neg (by simp)]
  simp only []
  split
  · rfl
  · rw [if_pos trivial, tierLoop_seen_eq_noSkip]

def hav0 : ℚ → ℚ → ℚ → ℚ → ℚ := fun _ _ _ _ => 0

def sqrt0 : ℚ → ℚ := fun _ => 0

/-- Subject with a neighborhood code and a known story count (1). -/
def srowStories : SubjectRow :=
  { nullSubjectRow with
    acct := .str "S1"
    neighborhood_code := .str "N1"
    stories := .int 1 }

/-- A same-neighborhood candidate whose story count is unknown: it fails
every bounded story tolerance and passes only the unbounded one. -/
def candNoStories : CandRow := { nullCandRow with acct := .str "X" }

def repoStrict : Repo :=
  ⟨fun a => if a = "S1" then some srowStories else none,
    fun _ _ => [candNoStories], fun _ _ _ _ _ => [], fun _ _ => []⟩

/-- C1 counterexample: with `radius_first_strict = True` and `min_comps = 1`,
the strict tuple (story tolerance ±0) fails in the `neighborhood` tier, yet
the accepted result still comes from that same first tier with the relaxed
story band `'any'` after 5 attempts — the engine relaxed within the tier
instead of advancing with only the single strict attempt, refuting the
claim. -/
theorem strict_first_only_claim_cex :
    (match (find_comps hav0 sqrt0 repoStrict "S1" 25 1 true none []).1 with
      | .ok r => (r.meta.geo_tier, r.meta.story_band, r.meta.attempts, r.comps.length,
          r.meta.relaxed.map RelaxedMap.story_band)
      | .error _ => (none, none, 0, 0, none)) =
    (some "neighborhood", some "any", 5, 1, some true) := by
  with_unfolding_all decide

/-- The search context `find_comps` builds for the `repoStrict` scenario. -/
def ctxStrict : SearchCtx :=
  ⟨hav0, sqrt0, repoStrict, "S1", 25, 1, true, srowStories,
    subjectOfRow srowStories, baselineOf srowStories, meta0Of srowStories⟩

/-- C1 witness: the amended behaviour on the concrete strict-flag scenario. -/
theorem strict_first_relaxes_within_tier_witness :
    ctxStrict.radius_first_strict = true ∧
    ctxStrict.tierLoop [candNoStories] [] "neighborhood" none
      (iterate_constraint_sets true SIZE_BANDS LOT_BANDS YEAR_BANDS BED_BATH_BANDS
        (storyTols ctxStrict.srow) (poolModes ctxStrict.srow)
        (garageModes ctxStrict.srow)) false 0 =
    ctxStrict.noSkipTierLoop [candNoStories] [] "neighborhood" none
      (iterate_constraint_sets true SIZE_BANDS LOT_BANDS YEAR_BANDS BED_BATH_BANDS
        (storyTols ctxStrict.srow) (poolModes ctxStrict.srow)
        (garageModes ctxStrict.srow)) 0 :=
  ⟨rfl, strict_first_relaxes_within_tier ctxStrict [candNoStories] [] "neighborhood"
    none 0 rfl⟩

/-! ## C2: bounds on the returned comparable count -/

/-- A cache entry respects the length contract of its own key's
`(max_comps, min_comps)` parameters. -/
def cacheEntryOK : CacheKey × MatchResult → Prop
  | ((_, mx, mn, _, _), v) =>
      1 ≤ mx → mn ≤ mx →
        (v.comps.length = 0 ∨ (mn ≤ (v.comps.length : ℤ) ∧ (v.comps.length : ℤ) ≤ mx))

/-- Every entry of the cache respects its key's length contract (holds for
the empty cache a fresh process starts with, and is preserved by
`find_comps` itself). -/
def cacheOK (c : Cache) : Prop := ∀ e ∈ c, cacheEntryOK e

/-- The inner accumulation never grows past `max_comps` (when it starts
strictly below it). -/
theorem selectLoop_length_le (ctx : SearchCtx) (cb : Combo) (dm : List (Val × ℚ))
    (rv : Option ℚ) :
    ∀ (l : List CandRow) (acc : List CompRec), (acc.length : ℤ) < ctx.max_comps →
      ((ctx.selectLoop cb dm rv l acc).length : ℤ) ≤ ctx.max_comps := by
  intro l
  induction l with
  | nil => intro acc h; rw [SearchCtx.selectLoop]; exact le_of_lt h
  | cons cand rest ih =>
      intro acc h
      rw [SearchCtx.selectLoop]
      split
      · cases materialize_candidate ctx.srow cand dm rv with
        | none => exact ih acc h
        | some rec0 =>
            simp only []
            have hlen : (acc ++ [rec0]).length = acc.length + 1 := by
              rw [List.length_append]; rfl
            split
            · rw [hlen]; push_cast; omega
            · next hno =>
                refine ih (acc ++ [rec0]) ?_
                rw [hlen] at hno ⊢
                push_cast at hno ⊢
                omega
      · exact ih acc h

/-- `finalize_result` preserves the number of comparables. -/
theorem finalize_ok_length (sqrtq : ℚ → ℚ) (subject : SubjectRec) (meta0 : Meta)
    (baseline : BaselineLabels) (comps : List CompRec) (lbl : String)
    (rv : Option ℚ) (cb : Combo) (att : ℕ) (r : MatchResult)
    (h : finalize_result sqrtq subject meta0 baseline comps lbl rv cb att = .ok r) :
    r.comps.length = comps.length := by
  unfold finalize_result at h
  simp only [] at h
  split at h
  · exact Except.noConfusion h
  · injection h with h2
    rw [← h2]
    simp only []
    rw [List.length_mergeSort, List.length_map]

/-- Any result accepted by the per-tier loop has between `min_comps` and
`max_comps` comparables. -/
theorem tierLoop_ok_some_bounds (ctx : SearchCtx) (cands : List CandRow)
    (dm : List (Val × ℚ)) (lbl : String) (rv : Option ℚ)
    (hmax : 1 ≤ ctx.max_comps) :
    ∀ (combos : List Combo) (seen : Bool) (a : ℕ) (r : MatchResult) (a2 : ℕ),
      ctx.tierLoop cands dm lbl rv combos seen a = (.ok (some r), a2) →
      ctx.min_comps ≤ (r.comps.length : ℤ) ∧ (r.comps.length : ℤ) ≤ ctx.max_comps := by
  intro combos
  induction combos with
  | nil =>
      intro seen a r a2 h
      rw [SearchCtx.tierLoop] at h
      injection h with h1 h2
      exact Option.noConfusion (Except.ok.inj h1)
  | cons cb rest ih =>
      intro seen a r a2 h
      rw [SearchCtx.tierLoop] at h
      split at h
      · exact ih seen a r a2 h
      · simp only [] at h
        split at h
        · next hmin =>
            split at h
            · exact Except.noConfusion (Prod.mk.inj h).1
            · next r' hfin =>
                have hr : r' = r := by
                  have := (Prod.mk.inj h).1
                  exact Option.some.inj (Except.ok.inj this)
                rw [← hr]
                have hsel := selectLoop_length_le ctx cb dm rv cands []
                  (by simpa using hmax)
                rw [finalize_ok_length _ _ _ _ _ _ _ _ _ _ hfin]
                exact ⟨hmin, hsel⟩
        · exact ih _ _ r a2 h

/-- Lifting the per-tier bound through the tier loop. -/
theorem tiersLoop_ok_some_bounds (ctx : SearchCtx) (hmax : 1 ≤ ctx.max_comps) :
    ∀ (seqs : List (String × Option ℚ × GeoSrc)) (a fe : ℕ) (r : MatchResult)
      (a2 f2 : ℕ),
      ctx.tiersLoop seqs a fe = (.ok (some r), a2, f2) →
      ctx.min_comps ≤ (r.comps.length : ℤ) ∧ (r.comps.length : ℤ) ≤ ctx.max_comps := by
  intro seqs
  induction seqs with
  | nil =>
      intro a fe r a2 f2 h
      rw [SearchCtx.tiersLoop] at h
      injection h with h1 h2
      exact Option.noConfusion (Except.ok.inj h1)
  | cons tier rest ih =>
      intro a fe r a2 f2 h
      obtain ⟨label, radius_val, src⟩ := tier
      rw [SearchCtx.tiersLoop] at h
      split at h
      · exact Except.noConfusion (Prod.mk.inj h).1
      · next cands fct hf =>
          simp only [] at h
          split at h
          · exact Except.noConfusion (Prod.mk.inj h).1
          · next r2 a3 htl =>
              have hr : r2 = r := by
                have := (Prod.mk.inj h).1
                exact Option.some.inj (Except.ok.inj this)
              rw [← hr]
              exact tierLoop_ok_some_bounds ctx cands _ label radius_val hmax _ _ _
                r2 _ htl
          · exact ih _ _ r a2 f2 h

/-- A cache hit returns an entry that is present in the cache. -/
theorem cacheGet_some_mem (me : ℤ) (k : CacheKey) (c : Cache) (v : MatchResult)
    (c2 : Cache) (h : cacheGet me k c = (some v, c2)) : (k, v) ∈ c := by
  unfold cacheGet at h
  split at h
  · exact absurd (Prod.mk.inj h).1 (by simp)
  · split at h
    · exact absurd (Prod.mk.inj h).1 (by simp)
    · next e rest hr =>
        have he2 : e.2 = v := Option.some.inj (Prod.mk.inj h).1
        have hk := removeFirst_eq_key k c e rest hr
        have hm := removeFirst_mem k c e rest hr
        have he : e = (k, v) := by
          obtain ⟨e1, e2⟩ := e
          simp only [] at hk he2
          rw [hk, he2]
        rw [← he]
        exact hm

/-- C2 (amended): for `1 ≤ max_comps` and `min_comps ≤ max_comps` (and a
cache containing only contract-respecting entries, as a fresh process's
empty cache trivially does), a successful `find_comps` returns a `comps`
list whose length is `0` or lies in `[min_comps, max_comps]`.  (The
`1 ≤ max_comps` guard is forced: with `max_comps = 0` the inner loop
appends one record before testing the cap.) -/
theorem find_comps_length_bounds (hav : ℚ → ℚ → ℚ → ℚ → ℚ) (sqrtq : ℚ → ℚ)
    (repo : Repo) (acct : String) (mx mn : ℤ) (rfs : Bool) (mr : Option ℚ)
    (cache : Cache) (res : MatchResult) (c2 : Cache) (f : ℕ)
    (hcache : cacheOK cache) (hmax : 1 ≤ mx) (hmm : mn ≤ mx)
    (hres : find_comps hav sqrtq repo acct mx mn rfs mr cache = (.ok res, c2, f)) :
    res.comps.length = 0 ∨
      (mn ≤ (res.comps.length : ℤ) ∧ (res.comps.length : ℤ) ≤ mx) := by
  unfold find_comps at hres
  cases hrow : repo.subjectRow acct with
  | none =>
      rw [hrow] at hres
      exact Except.noConfusion (Prod.mk.inj hres).1
  | some srow =>
      rw [hrow] at hres
      simp only [] at hres
      split at hres
      · next v cc hget =>
          have hv : v = res := Except.ok.inj (Prod.mk.inj hres).1
          have hmem := cacheGet_some_mem _ _ _ _ _ hget
          have := hcache _ hmem
          rw [hv] at this
          exact this hmax hmm
      · next cc hget =>
          split at hres
          · exact Except.noConfusion (Prod.mk.inj hres).1
          · next r2 a3 f3 htl =>
              have hr : r2 = res := Except.ok.inj (Prod.mk.inj hres).1
              rw [← hr]
              exact Or.inr (tiersLoop_ok_some_bounds _ (by simpa using hmax) _ _ _
                r2 _ _ htl)
          · next a3 f3 htl =>
              split at hres
              · exact Except.noConfusion (Prod.mk.inj hres).1
              · next ps hps =>
                  have h2 := Except.ok.inj (Prod.mk.inj hres).1
                  rw [← h2]
                  exact Or.inl rfl

/-- Subject used by the C2 scenarios: a neighborhood and nothing else. -/
def srowNbhd : SubjectRow :=
  { nullSubjectRow with acct := .str "S1", neighborhood_code := .str "N1" }

def repoNbhd : Repo :=
  ⟨fun a => if a = "S1" then some srowNbhd else none,
    fun _ _ => [candNoStories], fun _ _ _ _ _ => [], fun _ _ => []⟩

/-- C2 counterexample: with `min_comps = max_comps = 0` (a pair satisfying
`min_comps ≤ max_comps`) and one passing candidate, `find_comps` returns a
single comparable — the length is neither `0` nor `≤ max_comps`, because
the accumulation appends a record before testing the cap. -/
theorem find_comps_maxzero_cex :
    (match (find_comps hav0 sqrt0 repoNbhd "S1" 0 0 false none []).1 with
      | .ok r => r.comps.length
      | .error _ => 999) = 1 ∧ ¬((1 : ℤ) ≤ 0) := by
  constructor
  · with_unfolding_all decide
  · norm_num

/-- The result of the well-parameterized C2 scenario, extracted from the
computation itself. -/
def resBounds : MatchResult :=
  match (find_comps hav0 sqrt0 repoNbhd "S1" 25 1 false none []).1 with
  | .ok r => r
  | .error _ => ⟨subjectOfRow srowNbhd, [], meta0Of srowNbhd⟩

/-- C2 witness: the amended bound at `max_comps = 25`, `min_comps = 1` on
the concrete repository. -/
theorem find_comps_length_bounds_witness :
    resBounds.comps.length = 0 ∨
      (1 ≤ (resBounds.comps.length : ℤ) ∧ (resBounds.comps.length : ℤ) ≤ 25) :=
  find_comps_length_bounds hav0 sqrt0 repoNbhd "S1" 25 1 false none [] resBounds
    (find_comps hav0 sqrt0 repoNbhd "S1" 25 1 false none []).2.1
    (find_comps hav0 sqrt0 repoNbhd "S1" 25 1 false none []).2.2
    (by intro e he; exact absurd he (List.not_mem_nil e))
    (by norm_num) (by norm_num)
    (by with_unfolding_all rfl)

/-! ## C3: repeated calls with identical parameters -/

/-- `Set` followed by `Get` on the same key hits, returning the stored
value and leaving the cache unchanged. -/
theorem cacheGet_cacheSet_self (me : ℤ) (k : CacheKey) (v : MatchResult) (c : Cache)
    (hme : 0 < me) :
    cacheGet me k (cacheSet me k v c) = (some v, cacheSet me k v c) := by
  unfold cacheSet
  rw [if_neg (by omega)]
  simp only []
  have aux : ∀ c1 : Cache,
      cacheGet me k (if me < (((k, v) :: c1).length : ℤ) then ((k, v) :: c1).dropLast
        else (k, v) :: c1) =
      (some v, if me < (((k, v) :: c1).length : ℤ) then ((k, v) :: c1).dropLast
        else (k, v) :: c1) := by
    intro c1
    by_cases hlen : me < (((k, v) :: c1).length : ℤ)
    · rw [if_pos hlen]
      cases c1 with
      | nil =>
          exfalso
          rw [List.length_cons, List.length_nil] at hlen
          push_cast at hlen
          omega
      | cons x xs =>
          rw [List.dropLast_cons₂]
          unfold cacheGet
          rw [if_neg (by omega), removeFirst, if_pos rfl]
    · rw [if_neg hlen]
      unfold cacheGet
      rw [if_neg (by omega), removeFirst, if_pos rfl]
  cases hr : removeFirst k c with
  | none => exact aux c
  | some p => exact aux p.2

/-- A hit is stable: reading the promoted cache again hits the same entry
and leaves it in place. -/
theorem cacheGet_idem (me : ℤ) (k : CacheKey) (c : Cache) (v : MatchResult)
    (cc : Cache) (h : cacheGet me k c = (some v, cc)) :
    cacheGet me k cc = (some v, cc) := by
  unfold cacheGet at h ⊢
  split at h
  · exact absurd (Prod.mk.inj h).1 (by simp)
  · next hme =>
      rw [if_neg hme]
      split at h
      · exact absurd (Prod.mk.inj h).1 (by simp)
      · next e rest hr =>
          have hk := removeFirst_eq_key k c e rest hr
          have he2 : e.2 = v := Option.some.inj (Prod.mk.inj h).1
          have hcc : e :: rest = cc := (Prod.mk.inj h).2
          rw [← hcc, removeFirst, if_pos hk]
          simp only []
          rw [he2]

/-- After any successful `find_comps`, the result sits in the returned
cache under the call's own key. -/
theorem find_comps_ok_cache_key (hav : ℚ → ℚ → ℚ → ℚ → ℚ) (sqrtq : ℚ → ℚ)
    (repo : Repo) (acct : String) (mx mn : ℤ) (rfs : Bool) (mr : Option ℚ)
    (cache : Cache) (r : MatchResult) (c2 : Cache) (f : ℕ)
    (h : find_comps hav sqrtq repo acct mx mn rfs mr cache = (.ok r, c2, f)) :
    cacheGet CACHE_MAX_ENTRIES (acct, mx, mn, rfs, mr) c2 = (some r, c2) := by
  unfold find_comps at h
  cases hrow : repo.subjectRow acct with
  | none =>
      rw [hrow] at h
      exact Except.noConfusion (Prod.mk.inj h).1
  | some srow =>
      rw [hrow] at h
      simp only [] at h
      split at h
      · next v cc hget =>
          have hv : v = r := Except.ok.inj (Prod.mk.inj h).1
          have hcc : cc = c2 := (Prod.mk.inj (Prod.mk.inj h).2).1
          rw [← hv, ← hcc]
          exact cacheGet_idem _ _ _ _ _ hget
      · next cc hget =>
          have hcpos : (0 : ℤ) < CACHE_MAX_ENTRIES := by norm_num [CACHE_MAX_ENTRIES]
          split at h
          · exact Except.noConfusion (Prod.mk.inj h).1
          · next r2 a3 f3 htl =>
              have hr : r2 = r := Except.ok.inj (Prod.mk.inj h).1
              have hc2 : cacheSet CACHE_MAX_ENTRIES (acct, mx, mn, rfs, mr) r2 cc = c2 :=
                (Prod.mk.inj (Prod.mk.inj h).2).1
              rw [← hc2, ← hr]
              exact cacheGet_cacheSet_self _ _ _ _ hcpos
          · next a3 f3 htl =>
              split at h
              · exact Except.noConfusion (Prod.mk.inj h).1
              · next ps hps =>
                  have hr := Except.ok.inj (Prod.mk.inj h).1
                  have hc2 := (Prod.mk.inj (Prod.mk.inj h).2).1
                  rw [← hc2, ← hr]
                  exact cacheGet_cacheSet_self _ _ _ _ hcpos

/-- C3 (amended): calling `find_comps` again with identical parameters
returns the identical `MatchResult` and leaves the cache unchanged, but it
still performs exactly **one** repository fetch — the subject query, which
runs before the cache probe (only the candidate queries are skipped). -/
theorem find_comps_cached_idempotent (hav : ℚ → ℚ → ℚ → ℚ → ℚ) (sqrtq : ℚ → ℚ)
    (repo : Repo) (acct : String) (mx mn : ℤ) (rfs : Bool) (mr : Option ℚ)
    (cache : Cache) (r : MatchResult) (c2 : Cache) (f : ℕ)
    (h1 : find_comps hav sqrtq repo acct mx mn rfs mr cache = (.ok r, c2, f)) :
    find_comps hav sqrtq repo acct mx mn rfs mr c2 = (.ok r, c2, 1) := by
  have hkey := find_comps_ok_cache_key hav sqrtq repo acct mx mn rfs mr cache r c2 f h1
  cases hrow : repo.subjectRow acct with
  | none =>
      unfold find_comps at h1
      rw [hrow] at h1
      exact absurd (Prod.mk.inj h1).1 (fun hh => Except.noConfusion hh)
  | some srow =>
      unfold find_comps
      rw [hrow]
      simp only []
      rw [hkey]

instance : DecidableEq (Except String MatchResult) := fun a b =>
  match a, b with
  | .ok x, .ok y =>
      match decEq x y with
      | isTrue h => isTrue (by rw [h])
      | isFalse h => isFalse (fun hh => h (Except.ok.inj hh))
  | .error x, .error y =>
      match decEq x y with
      | isTrue h => isTrue (by rw [h])
      | isFalse h => isFalse (fun hh => h (Except.error.inj hh))
  | .ok _, .error _ => isFalse (fun hh => Except.noConfusion hh)
  | .error _, .ok _ => isFalse (fun hh => Except.noConfusion hh)

/-- C3 counterexample: on the concrete repository, the second identical
call returns the identical result but still performs 1 repository fetch
(the subject query) — not 0 as the claim requires ("neither the subject
query nor any candidate query"). -/
theorem find_comps_second_call_fetches_cex :
    (find_comps hav0 sqrt0 repoNbhd "S1" 25 1 false none
      (find_comps hav0 sqrt0 repoNbhd "S1" 25 1 false none []).2.1).2.2 = 1 ∧
    (find_comps hav0 sqrt0 repoNbhd "S1" 25 1 false none []).2.2 = 2 ∧
    (find_comps hav0 sqrt0 repoNbhd "S1" 25 1 false none
      (find_comps hav0 sqrt0 repoNbhd "S1" 25 1 false none []).2.1).1 =
      (find_comps hav0 sqrt0 repoNbhd "S1" 25 1 false none []).1 ∧
    (1 : ℕ) ≠ 0 := by
  refine ⟨?_, ?_, ?_, by norm_num⟩ <;> with_unfolding_all decide

/-- C3 witness: the amended idempotence applied to the concrete scenario. -/
theorem find_comps_cached_idempotent_witness :
    find_comps hav0 sqrt0 repoNbhd "S1" 25 1 false none
      (find_comps hav0 sqrt0 repoNbhd "S1" 25 1 false none []).2.1 =
    (.ok resBounds, (find_comps hav0 sqrt0 repoNbhd "S1" 25 1 false none []).2.1, 1) :=
  find_comps_cached_idempotent hav0 sqrt0 repoNbhd "S1" 25 1 false none [] resBounds
    (find_comps hav0 sqrt0 repoNbhd "S1" 25 1 false none []).2.1
    (find_comps hav0 sqrt0 repoNbhd "S1" 25 1 false none []).2.2
    (by with_unfolding_all rfl)

/-! ## C4: full exhaustion returns an empty result with the attempt total -/

/-- When skipping cannot occur (the strict tuple was seen, or the flag is
off), an exhausted tier attempts exactly one combination per list entry. -/
theorem tierLoop_exhaust_count_noskip (ctx : SearchCtx) (cands : List CandRow)
    (dm : List (Val × ℚ)) (lbl : String) (rv : Option ℚ) :
    ∀ (combos : List Combo) (seen : Bool) (a a2 : ℕ),
      (seen = true ∨ ctx.radius_first_strict = false) →
      ctx.tierLoop cands dm lbl rv combos seen a = (.ok none, a2) →
      a2 = a + combos.length := by
  intro combos
  induction combos with
  | nil =>
      intro seen a a2 hcond h
      rw [SearchCtx.tierLoop] at h
      have h2 := (Prod.mk.inj h).2
      rw [← h2, List.length_nil]
      ring
  | cons cb rest ih =>
      intro seen a a2 hcond h
      rw [SearchCtx.tierLoop] at h
      rw [if_neg ?guard] at h
      case guard =>
        rintro ⟨g1, g2, g3⟩
        rcases hcond with hc | hc
        · rw [hc] at g3; exact Bool.noConfusion g3
        · rw [hc] at g2; exact Bool.noConfusion g2
      simp only [] at h
      split at h
      · split at h
        · exact Except.noConfusion (Prod.mk.inj h).1
        · exact Option.noConfusion (Except.ok.inj (Prod.mk.inj h).1)
      · have hcond2 : (if cb.is_strict = true then true else seen) = true ∨
            ctx.radius_first_strict = false := by
          cases hs : cb.is_strict with
          | true => left; simp
          | false => simpa [hs] using hcond
        have := ih _ _ _ hcond2 h
        rw [this, List.length_cons]
        ring

/-- An exhausted tier attempts every combination produced by
`iterate_constraint_sets` — one attempt per entry, no skips. -/
theorem tierLoop_exhaust_count (ctx : SearchCtx) (cands : List CandRow)
    (dm : List (Val × ℚ)) (lbl : String) (rv : Option ℚ) (a a2 : ℕ)
    (h : ctx.tierLoop cands dm lbl rv
      (iterate_constraint_sets ctx.radius_first_strict SIZE_BANDS LOT_BANDS
        YEAR_BANDS BED_BATH_BANDS (storyTols ctx.srow) (poolModes ctx.srow)
        (garageModes ctx.srow)) false a = (.ok none, a2)) :
    a2 = a + (iterate_constraint_sets ctx.radius_first_strict SIZE_BANDS LOT_BANDS
      YEAR_BANDS BED_BATH_BANDS (storyTols ctx.srow) (poolModes ctx.srow)
      (garageModes ctx.srow)).length := by
  by_cases hrfs : ctx.radius_first_strict = true
  · rw [iterate_constraint_sets, if_pos hrfs, List.singleton_append] at h ⊢
    rw [SearchCtx.tierLoop] at h
    rw [if_neg (by simp)] at h
    simp only [] at h
    split at h
    · split at h
      · exact Except.noConfusion (Prod.mk.inj h).1
      · exact Option.noConfusion (Except.ok.inj (Prod.mk.inj h).1)
    · have := tierLoop_exhaust_count_noskip ctx cands dm lbl rv _ _ _ _
        (Or.inl (if_pos trivial)) h
      rw [this, List.length_cons]
      omega
  · have hrfs2 : ctx.radius_first_strict = false := by
      revert hrfs
      cases ctx.radius_first_strict <;> simp
    exact tierLoop_exhaust_count_noskip ctx cands dm lbl rv _ false a a2
      (Or.inr hrfs2) h

/-- The total attempt count of a fully exhausted search: geographic tiers ×
combinations per tier. -/
theorem tiersLoop_exhaust_count (ctx : SearchCtx) :
    ∀ (seqs : List (String × Option ℚ × GeoSrc)) (a fe a2 f2 : ℕ),
      ctx.tiersLoop seqs a fe = (.ok none, a2, f2) →
      a2 = a + seqs.length *
        (iterate_constraint_sets ctx.radius_first_strict SIZE_BANDS LOT_BANDS
          YEAR_BANDS BED_BATH_BANDS (storyTols ctx.srow) (poolModes ctx.srow)
          (garageModes ctx.srow)).length := by
  intro seqs
  induction seqs with
  | nil =>
      intro a fe a2 f2 h
      rw [SearchCtx.tiersLoop] at h
      have h2 := (Prod.mk.inj (Prod.mk.inj h).2).1
      rw [← h2, List.length_nil]
      ring
  | cons tier rest ih =>
      intro a fe a2 f2 h
      obtain ⟨label, radius_val, src⟩ := tier
      rw [SearchCtx.tiersLoop] at h
      split at h
      · exact Except.noConfusion (Prod.mk.inj h).1
      · next cands fct hf =>
          simp only [] at h
          split at h
          · exact Except.noConfusion (Prod.mk.inj h).1
          · next r2 a3 htl =>
              exact absurd (Except.ok.inj (Prod.mk.inj h).1)
                (fun hh => Option.noConfusion hh)
          · next a3 htl =>
              have h1 := tierLoop_exhaust_count ctx cands _ label radius_val a a3 htl
              have h2 := ih a3 _ a2 f2 h
              rw [h2, h1, List.length_cons]
              ring

/-- `compute_pricing_stats` on an empty comparable list never raises. -/
theorem compute_pricing_stats_nil (sqrtq : ℚ → ℚ) (subject : SubjectRec) :
    ∃ ps, compute_pricing_stats sqrtq subject [] = .ok ps :=
  ⟨_, rfl⟩

/-- C4 (amended): when every geographic tier and every constraint
combination is exhausted without reaching `min_comps`, `find_comps` returns
normally with an **empty** comparable list (any partial list from the last
attempt is discarded) and `meta.attempts` equal to the total number of
constraint combinations tried: tiers × combinations-per-tier. -/
theorem find_comps_exhausted_returns_empty (hav : ℚ → ℚ → ℚ → ℚ → ℚ)
    (sqrtq : ℚ → ℚ) (repo : Repo) (acct : String) (mx mn : ℤ) (rfs : Bool)
    (mr : Option ℚ) (cache : Cache) (srow : SubjectRow)
    (hrow : repo.subjectRow acct = some srow)
    (hmiss : (cacheGet CACHE_MAX_ENTRIES (acct, mx, mn, rfs, mr) cache).1 = none)
    (att f2 : ℕ)
    (hex : (SearchCtx.mk hav sqrtq repo acct mx mn rfs srow (subjectOfRow srow)
        (baselineOf srow) (meta0Of srow)).tiersLoop (geoSequences srow mr) 0 1 =
      (.ok none, att, f2)) :
    ∃ res c2, find_comps hav sqrtq repo acct mx mn rfs mr cache = (.ok res, c2, f2) ∧
      res.comps = [] ∧ res.meta.attempts = att ∧
      att = (geoSequences srow mr).length *
        (iterate_constraint_sets rfs SIZE_BANDS LOT_BANDS YEAR_BANDS BED_BATH_BANDS
          (storyTols srow) (poolModes srow) (garageModes srow)).length := by
  have hcount := tiersLoop_exhaust_count
    (SearchCtx.mk hav sqrtq repo acct mx mn rfs srow (subjectOfRow srow)
      (baselineOf srow) (meta0Of srow)) (geoSequences srow mr) 0 1 att f2 hex
  unfold find_comps
  rw [hrow]
  simp only []
  rw [← Prod.mk.eta (p := cacheGet CACHE_MAX_ENTRIES (acct, mx, mn, rfs, mr) cache),
    hmiss]
  simp only []
  rw [hex]
  simp only []
  obtain ⟨ps, hps⟩ := compute_pricing_stats_nil sqrtq (subjectOfRow srow)
  rw [hps]
  refine ⟨_, _, rfl, rfl, rfl, ?_⟩
  simpa using hcount

/-- The search context of the exhausted scenario (`min_comps = 2`, one
candidate). -/
def ctxNbhd2 : SearchCtx :=
  ⟨hav0, sqrt0, repoNbhd, "S1", 25, 2, false, srowNbhd,
    subjectOfRow srowNbhd, baselineOf srowNbhd, meta0Of srowNbhd⟩

/-- The fully unbounded combination, last in the Cartesian product. -/
def lastCombo : Combo := ⟨none, none, none, none, none, "any", "any", false⟩

/-- C4 counterexample: the subject's single neighbor passes the final
(fully unbounded) combination, so the last attempt's partial list is
non-empty — yet the exhausted `find_comps` result carries an **empty**
`comps` list (with `attempts = 2016`), not "the best empty-or-partial
comparable list from the last attempt". -/
theorem find_comps_exhausted_discards_partial_cex :
    (match (find_comps hav0 sqrt0 repoNbhd "S1" 25 2 false none []).1 with
      | .ok r => (r.comps, r.meta.attempts)
      | .error _ => ([nullCompRec], 0)) = ([], 2016) ∧
    (iterate_constraint_sets false SIZE_BANDS LOT_BANDS YEAR_BANDS BED_BATH_BANDS
      (storyTols srowNbhd) (poolModes srowNbhd) (garageModes srowNbhd)).getLast? =
      some lastCombo ∧
    ctxNbhd2.selectLoop lastCombo [] none [candNoStories] [] =
      [compOfCand candNoStories none] ∧
    [compOfCand candNoStories none] ≠ ([] : List CompRec) := by
  refine ⟨?_, ?_, ?_, by simp⟩
  · with_unfolding_all decide
  · with_unfolding_all decide
  · with_unfolding_all decide

/-- C4 witness: the amended exhaustion behaviour on the concrete scenario
(2 tiers × 1008 combinations = 2016 attempts, empty result). -/
theorem find_comps_exhausted_returns_empty_witness :
    ∃ res c2, find_comps hav0 sqrt0 repoNbhd "S1" 25 2 false none [] =
      (.ok res, c2, 2) ∧ res.comps = [] ∧ res.meta.attempts = 2016 ∧
      2016 = (geoSequences srowNbhd none).length *
        (iterate_constraint_sets false SIZE_BANDS LOT_BANDS YEAR_BANDS
          BED_BATH_BANDS (storyTols srowNbhd) (poolModes srowNbhd)
          (garageModes srowNbhd)).length :=
  find_comps_exhausted_returns_empty hav0 sqrt0 repoNbhd "S1" 25 2 false none []
    srowNbhd (by with_unfolding_all rfl) rfl 2016 2
    (by with_unfolding_all rfl)

end TaxProtest
